import Mathlib

/-!
Verification of the UMSBB v4.0 core (src/umsbb_complete_core.c) against its
natural-language specification.

The C file is shallowly embedded below.  Machine integers are modelled as
`Nat`.  The 64-bit message cursors and the statistics counters are monotone
and advance by at most `65600` per operation, so their 2^64 wrap-around is
unreachable in any execution of realistic length and they are modelled as
unbounded naturals; quantities whose wrap-around the code actually exercises
(the 32-bit checksum accumulator, the 32-bit handle counter, the struct-field
byte windows, the `uint64` subtraction in segment selection) carry an explicit
modulus.  Byte memory is a function `Nat → Nat` read through `% 256`
(a C `uint8_t*` can only ever yield values below 256); `malloc`ed memory is
uninitialized, so freshly allocated contents enter `umsbb_create_buffer` as an
explicit `junk` parameter.  A data pointer is `Option (Nat → Nat)` with `none`
for `NULL`.
-/

set_option maxRecDepth 40000

namespace UMSBB

/-- 2^32, the modulus of `uint32_t` arithmetic. -/
def U32 : Nat := 4294967296

/-- 2^64, the modulus of `uint64_t` arithmetic. -/
def U64 : Nat := 18446744073709551616

/-- `#define UMSBB_MAGIC_NUMBER 0x554D5342`. -/
def UMSBB_MAGIC_NUMBER : Nat := 0x554D5342

/-- `#define UMSBB_MAX_MESSAGE_SIZE (64 * 1024)`. -/
def UMSBB_MAX_MESSAGE_SIZE : Nat := 65536

/-- `#define UMSBB_SEGMENT_COUNT 8`. -/
def UMSBB_SEGMENT_COUNT : Nat := 8

/-- `#define UMSBB_MAX_BUFFERS 256`. -/
def UMSBB_MAX_BUFFERS : Nat := 256

/-- `#define UMSBB_ALIGNMENT 64`. -/
def UMSBB_ALIGNMENT : Nat := 64

/-- `sizeof(umsbb_message_header_t)`: 4+4+8+8+4+4+32 reserved = 64 bytes. -/
def HEADER_SIZE : Nat := 64

/-- Error codes from the `umsbb_error_t` enum. -/
def UMSBB_SUCCESS : Int := 0
def UMSBB_ERROR_INVALID_PARAMS : Int := -1
def UMSBB_ERROR_BUFFER_FULL : Int := -2
def UMSBB_ERROR_BUFFER_EMPTY : Int := -3
def UMSBB_ERROR_INVALID_HANDLE : Int := -4
def UMSBB_ERROR_CORRUPTED_DATA : Int := -6
def UMSBB_ERROR_BUFFER_OVERFLOW : Int := -7
def UMSBB_ERROR_INVALID_SIZE : Int := -8

/-- `umsbb_align_size`: `(size + UMSBB_ALIGNMENT - 1) & ~(UMSBB_ALIGNMENT - 1)`
in `uint32_t` arithmetic; the mask clears the low 6 bits, i.e. rounds
`(size + 63) mod 2^32` down to a multiple of 64. -/
def umsbb_align_size (size : Nat) : Nat := ((size + 63) % U32) / 64 * 64

/-- `umsbb_calculate_checksum`: `checksum = checksum * 31 + bytes[i]` over
`uint32_t`, for `i = 0 .. size-1`.  `data i % 256` models the `uint8_t` read. -/
def umsbb_calculate_checksum (data : Nat → Nat) : Nat → Nat
  | 0 => 0
  | n + 1 => (umsbb_calculate_checksum data n * 31 + data n % 256) % U32

/-- `umsbb_message_header_t` (the `reserved[32]` bytes are kept implicitly:
the writer `memset`s them to zero and no reader inspects them). -/
structure MessageHeader where
  magic : Nat
  size : Nat
  sequence : Nat
  timestamp : Nat
  checksum : Nat
  flags : Nat

/-- Byte image of a `umsbb_message_header_t` as `memcpy` lays it out
(host little-endian): magic at 0, size at 4, sequence at 8, timestamp at 16,
checksum at 24, flags at 28, reserved zero bytes at 32..63. -/
def encodeHeader (h : MessageHeader) : Nat → Nat := fun i =>
  if i < 4 then h.magic / 256 ^ i % 256
  else if i < 8 then h.size / 256 ^ (i - 4) % 256
  else if i < 16 then h.sequence / 256 ^ (i - 8) % 256
  else if i < 24 then h.timestamp / 256 ^ (i - 16) % 256
  else if i < 28 then h.checksum / 256 ^ (i - 24) % 256
  else if i < 32 then h.flags / 256 ^ (i - 28) % 256
  else 0

/-- Little-endian read of `w` bytes of memory `m` starting at `off`. -/
def decodeLE (m : Nat → Nat) : Nat → Nat → Nat
  | _, 0 => 0
  | off, w + 1 => m off % 256 + 256 * decodeLE m (off + 1) w

/-- Reading a `umsbb_message_header_t` back out of segment memory
(the inverse of the `memcpy` of `encodeHeader`). -/
def decodeHeader (m : Nat → Nat) (off : Nat) : MessageHeader :=
  { magic := decodeLE m off 4
    size := decodeLE m (off + 4) 4
    sequence := decodeLE m (off + 8) 8
    timestamp := decodeLE m (off + 16) 8
    checksum := decodeLE m (off + 24) 4
    flags := decodeLE m (off + 28) 4 }

/-- `memcpy(m + off, src, n)` on byte memory. -/
def memWrite (m : Nat → Nat) (off : Nat) (src : Nat → Nat) (n : Nat) : Nat → Nat :=
  fun i => if off ≤ i ∧ i < off + n then src (i - off) else m i

/-- `uint64_t` subtraction `a - b` (two's-complement wrap-around). -/
def sub64 (a b : Nat) : Nat := (a % U64 + U64 - b % U64) % U64

/-- `umsbb_segment_t`.  `data` is the segment's byte region (segment regions
are disjoint, so each segment carries its own memory function). -/
structure Segment where
  read_pos : Nat
  write_pos : Nat
  message_count : Nat
  active : Nat
  data : Nat → Nat
  size : Nat
  segment_id : Nat

/-- `umsbb_buffer_t`. -/
structure Buffer where
  magic : Nat
  handle : Nat
  size_mb : Nat
  total_size : Nat
  segments : Nat → Segment
  total_messages_written : Nat
  total_messages_read : Nat
  total_bytes_written : Nat
  total_bytes_read : Nat
  write_operations : Nat
  read_operations : Nat
  failed_writes : Nat
  failed_reads : Nat
  max_message_size : Nat
  segment_size : Nat
  active_segments : Nat
  initialized : Nat
  last_write_time : Nat
  last_read_time : Nat
  peak_pending_messages : Nat
  current_pending_messages : Nat

/-- The process-wide mutable state: the registry `g_buffers`, the handle
counter `g_next_handle`, `g_active_buffers`, and the static counter inside
`umsbb_get_timestamp` (the non-Emscripten fallback clock). -/
structure Sys where
  g_buffers : Nat → Option Buffer
  g_next_handle : Nat
  g_active_buffers : Nat
  ts_counter : Nat

/-- State right after program start (`g_buffers` zeroed, `g_next_handle = 1`),
identical to the state `umsbb_init_system` establishes. -/
def initialSys : Sys :=
  { g_buffers := fun _ => none
    g_next_handle := 1
    g_active_buffers := 0
    ts_counter := 0 }

/-- The do-while loop of `umsbb_get_next_handle`, with fuel for structural
termination; each iteration is `handle = ATOMIC_ADD(&g_next_handle, 1)`
(a `uint32_t` increment), repeated `while (handle == 0 || handle >= 256)`.
The fuel never runs out when it starts at `U32 + 2` (see
`nextHandleLoop_wrap`). -/
def nextHandleLoop : Nat → Nat → Nat
  | 0, _ => 0
  | fuel + 1, c =>
    let h := (c + 1) % U32
    if h = 0 ∨ UMSBB_MAX_BUFFERS ≤ h then nextHandleLoop fuel h else h

/-- `umsbb_get_next_handle`, acting on the current `g_next_handle` value `c`;
it returns the chosen handle, and `g_next_handle` afterwards equals that
handle (the last value the loop stored). -/
def umsbb_get_next_handle (c : Nat) : Nat := nextHandleLoop (U32 + 2) c

/-- `umsbb_find_buffer`. -/
def umsbb_find_buffer (st : Sys) (handle : Nat) : Option Buffer :=
  if handle = 0 ∨ UMSBB_MAX_BUFFERS ≤ handle then none
  else
    match st.g_buffers handle with
    | none => none
    | some b =>
      if b.initialized ≠ 0 ∧ b.magic = UMSBB_MAGIC_NUMBER then some b else none

/-- Per-segment in-flight amount `write_pos - read_pos` as the `uint64`
subtraction the C code performs. -/
def segPending (s : Segment) : Nat := sub64 s.write_pos s.read_pos

/-- `umsbb_select_write_segment`: scan the 8 segments, keep the active one
with the least `write_pos - read_pos` (ties keep the earlier index;
`min_pending` starts at `UINT64_MAX`). -/
def umsbb_select_write_segment (buf : Buffer) : Nat :=
  ((List.range UMSBB_SEGMENT_COUNT).foldl
    (fun acc i =>
      if (buf.segments i).active ≠ 0 ∧ segPending (buf.segments i) < acc.2
      then (i, segPending (buf.segments i))
      else acc)
    (0, U64 - 1)).1

/-- `umsbb_select_read_segment`: the first active segment with
`message_count > 0`, defaulting to segment 0. -/
def umsbb_select_read_segment (buf : Buffer) : Nat :=
  match (List.range UMSBB_SEGMENT_COUNT).find?
      (fun i => (buf.segments i).active ≠ 0 ∧ 0 < (buf.segments i).message_count) with
  | some i => i
  | none => 0

/-- `umsbb_init_segment` (the caller passes a fresh nonempty memory region,
so the `INVALID_PARAMS` branch is never taken during `umsbb_create_buffer`). -/
def umsbb_init_segment (segment_id : Nat) (memory : Nat → Nat) (size : Nat) : Segment :=
  { read_pos := 0
    write_pos := 0
    message_count := 0
    active := 1
    data := memory
    size := size
    segment_id := segment_id }

/-- `umsbb_create_buffer`.  `junk` is the (uninitialized) content `malloc`
returned for the data area; segment `i` owns bytes
`[i * segment_size, (i+1) * segment_size)` of it.  Returns the handle
(`0` on failure) and the new system state.  `malloc` itself is modelled as
always succeeding: its failure paths return `0` without touching shared
state, which is indistinguishable from a rejected `size_mb`. -/
def umsbb_create_buffer (st : Sys) (size_mb : Nat) (junk : Nat → Nat) : Nat × Sys :=
  if size_mb < 1 ∨ 64 < size_mb then (0, st)
  else
    let total_size := size_mb * 1024 * 1024
    let segment_size := umsbb_align_size (total_size / UMSBB_SEGMENT_COUNT)
    let handle := umsbb_get_next_handle st.g_next_handle
    if handle = 0 ∨ UMSBB_MAX_BUFFERS ≤ handle then (0, { st with g_next_handle := handle })
    else
      let buf : Buffer :=
        { magic := UMSBB_MAGIC_NUMBER
          handle := handle
          size_mb := size_mb
          total_size := total_size
          segments := fun i =>
            umsbb_init_segment i (fun j => junk (i * segment_size + j)) segment_size
          total_messages_written := 0
          total_messages_read := 0
          total_bytes_written := 0
          total_bytes_read := 0
          write_operations := 0
          read_operations := 0
          failed_writes := 0
          failed_reads := 0
          max_message_size := UMSBB_MAX_MESSAGE_SIZE
          segment_size := segment_size
          active_segments := UMSBB_SEGMENT_COUNT
          initialized := 1
          last_write_time := 0
          last_read_time := 0
          peak_pending_messages := 0
          current_pending_messages := 0 }
      (handle,
        { st with
          g_buffers := fun h => if h = handle then some buf else st.g_buffers h
          g_next_handle := handle
          g_active_buffers := st.g_active_buffers + 1 })

/-- Store an updated buffer back into the registry (the C code mutates the
buffer in place through the registry pointer). -/
def putBuffer (st : Sys) (handle : Nat) (b : Buffer) : Sys :=
  { st with g_buffers := fun h => if h = handle then some b else st.g_buffers h }

/-- Replace segment `idx` of a buffer. -/
def putSegment (b : Buffer) (idx : Nat) (s : Segment) : Buffer :=
  { b with segments := fun i => if i = idx then s else b.segments i }

/-- The success path of `umsbb_write_message` (source lines 375-418): build
the header, `memcpy` it and the payload into the selected segment `idx`
(with the wrap-around adjustment of lines 390-394), then advance the write
cursor and the statistics.  Returns the new system state. -/
def commitWrite (st : Sys) (handle : Nat) (buf : Buffer) (idx : Nat)
    (d : Nat → Nat) (size : Nat) : Sys :=
  let seg := buf.segments idx
  let total_size := umsbb_align_size (HEADER_SIZE + size)
  let current_write := seg.write_pos
  let current_read := seg.read_pos
  let seq := buf.total_messages_written + 1
  let ts := st.ts_counter + 1
  let header : MessageHeader :=
    { magic := UMSBB_MAGIC_NUMBER
      size := size
      sequence := seq
      timestamp := ts
      checksum := umsbb_calculate_checksum d size
      flags := 0 }
  let write_offset := current_write % seg.size
  let wraps := seg.size < write_offset + total_size
  let write_offset' := if wraps then 0 else write_offset
  let current_write' := if wraps then current_read + seg.size else current_write
  let mem1 := memWrite seg.data write_offset' (encodeHeader header) HEADER_SIZE
  let mem2 := memWrite mem1 (write_offset' + HEADER_SIZE) d size
  let seg' :=
    { seg with
      write_pos := current_write' + total_size
      message_count := seg.message_count + 1
      data := mem2 }
  let pending := buf.current_pending_messages + 1
  let buf' :=
    { putSegment buf idx seg' with
      total_messages_written := seq
      total_bytes_written := buf.total_bytes_written + size
      write_operations := buf.write_operations + 1
      last_write_time := ts
      current_pending_messages := pending
      peak_pending_messages :=
        if buf.peak_pending_messages < pending then pending
        else buf.peak_pending_messages }
  { putBuffer st handle buf' with ts_counter := ts }

/-- The body of `umsbb_write_message` once the buffer has been found:
select a segment, check the free space (lines 359-373), and either fail
with `BUFFER_FULL` (bumping `failed_writes`) or commit. -/
def writeToBuffer (st : Sys) (handle : Nat) (buf : Buffer) (d : Nat → Nat)
    (size : Nat) : Int × Sys :=
  let segment_idx := umsbb_select_write_segment buf
  let seg := buf.segments segment_idx
  let total_size := umsbb_align_size (HEADER_SIZE + size)
  if seg.read_pos + seg.size < seg.write_pos + total_size then
    (UMSBB_ERROR_BUFFER_FULL,
      putBuffer st handle { buf with failed_writes := buf.failed_writes + 1 })
  else
    (UMSBB_SUCCESS, commitWrite st handle buf segment_idx d size)

/-- `umsbb_write_message`.  `data = none` models a `NULL` pointer. -/
def umsbb_write_message (st : Sys) (handle : Nat) (data : Option (Nat → Nat))
    (size : Nat) : Int × Sys :=
  match data with
  | none => (UMSBB_ERROR_INVALID_PARAMS, st)
  | some d =>
    if size = 0 ∨ UMSBB_MAX_MESSAGE_SIZE < size then (UMSBB_ERROR_INVALID_PARAMS, st)
    else
      match umsbb_find_buffer st handle with
      | none => (UMSBB_ERROR_INVALID_HANDLE, st)
      | some buf => writeToBuffer st handle buf d size

/-- Result of `umsbb_read_message`: the status, the new system state, the
bytes `memcpy`d into the caller's output buffer (`none` when the code returns
before that `memcpy`), and the value stored through `actual_size` (`none`
when the code returns before that store). -/
structure ReadResult where
  err : Int
  st : Sys
  out : Option ((Nat → Nat) × Nat)
  actual : Option Nat

/-- The success path of `umsbb_read_message` (source lines 479-495): advance
the read cursor by the aligned message size, decrement `message_count`,
update the statistics.  `header` is the decoded message header. -/
def commitRead (st : Sys) (handle : Nat) (buf : Buffer) (idx : Nat)
    (header : MessageHeader) : Sys :=
  let seg := buf.segments idx
  let total_size := umsbb_align_size (HEADER_SIZE + header.size)
  let ts := st.ts_counter + 1
  let seg' :=
    { seg with
      read_pos := seg.read_pos + total_size
      message_count := seg.message_count - 1 }
  let buf' :=
    { putSegment buf idx seg' with
      total_messages_read := buf.total_messages_read + 1
      total_bytes_read := buf.total_bytes_read + header.size
      read_operations := buf.read_operations + 1
      last_read_time := ts
      current_pending_messages := buf.current_pending_messages - 1 }
  { putBuffer st handle buf' with ts_counter := ts }

/-- The body of `umsbb_read_message` once the buffer has been found:
select a segment, check for pending messages, decode and validate the
header, copy the payload out, verify the checksum, and commit. -/
def readFromBuffer (st : Sys) (handle : Nat) (buf : Buffer)
    (buffer_size : Nat) : ReadResult :=
  let segment_idx := umsbb_select_read_segment buf
  let seg := buf.segments segment_idx
  if seg.message_count = 0 then ⟨UMSBB_ERROR_BUFFER_EMPTY, st, none, none⟩
  else if seg.write_pos ≤ seg.read_pos then ⟨UMSBB_ERROR_BUFFER_EMPTY, st, none, none⟩
  else
    let read_offset := seg.read_pos % seg.size
    let header := decodeHeader seg.data read_offset
    if header.magic ≠ UMSBB_MAGIC_NUMBER then
      ⟨UMSBB_ERROR_CORRUPTED_DATA,
        putBuffer st handle { buf with failed_reads := buf.failed_reads + 1 },
        none, none⟩
    else if buffer_size < header.size then
      ⟨UMSBB_ERROR_INVALID_SIZE, st, none, none⟩
    else
      let out : Nat → Nat := fun i => seg.data (read_offset + HEADER_SIZE + i) % 256
      if umsbb_calculate_checksum out header.size ≠ header.checksum then
        ⟨UMSBB_ERROR_CORRUPTED_DATA,
          putBuffer st handle { buf with failed_reads := buf.failed_reads + 1 },
          some (out, header.size), none⟩
      else
        ⟨UMSBB_SUCCESS, commitRead st handle buf segment_idx header,
          some (out, header.size), some header.size⟩

/-- `umsbb_read_message`.  `outPresent` / `actualPresent` model the NULL
checks on `buffer_out` and `actual_size`. -/
def umsbb_read_message (st : Sys) (handle : Nat) (outPresent : Bool)
    (buffer_size : Nat) (actualPresent : Bool) : ReadResult :=
  if ¬outPresent ∨ buffer_size = 0 ∨ ¬actualPresent then
    ⟨UMSBB_ERROR_INVALID_PARAMS, st, none, none⟩
  else
    match umsbb_find_buffer st handle with
    | none => ⟨UMSBB_ERROR_INVALID_HANDLE, st, none, none⟩
    | some buf => readFromBuffer st handle buf buffer_size

/-- `umsbb_destroy_buffer` (note: it checks only `g_buffers[handle] != NULL`,
not the magic or the initialized flag). -/
def umsbb_destroy_buffer (st : Sys) (handle : Nat) : Int × Sys :=
  if handle = 0 ∨ UMSBB_MAX_BUFFERS ≤ handle then (UMSBB_ERROR_INVALID_HANDLE, st)
  else
    match st.g_buffers handle with
    | none => (UMSBB_ERROR_INVALID_HANDLE, st)
    | some _ =>
      (UMSBB_SUCCESS,
        { st with
          g_buffers := fun h => if h = handle then none else st.g_buffers h
          g_active_buffers := st.g_active_buffers - 1 })

/-! ### Arithmetic facts about the embedded primitives -/

lemma U32_pos : 0 < U32 := by norm_num [U32]

lemma align_eq (s : Nat) (h : s + 63 < U32) :
    umsbb_align_size s = (s + 63) / 64 * 64 := by
  unfold umsbb_align_size
  rw [Nat.mod_eq_of_lt h]

lemma align_of_mul64 (k : Nat) (h : 64 * k + 63 < U32) :
    umsbb_align_size (64 * k) = 64 * k := by
  rw [align_eq _ h, Nat.mul_add_div (by norm_num)]
  norm_num [Nat.mul_comm]

lemma align_ge (s : Nat) (h : s + 63 < U32) : s ≤ umsbb_align_size s := by
  rw [align_eq _ h]
  have := Nat.lt_div_mul_add (a := s + 63) (b := 64) (by norm_num)
  omega

lemma align_le (s : Nat) (h : s + 63 < U32) : umsbb_align_size s ≤ s + 63 := by
  rw [align_eq _ h]
  exact Nat.div_mul_le_self _ _

/-- The checksum accumulator stays below 2^32. -/
lemma checksum_lt (d : Nat → Nat) (n : Nat) : umsbb_calculate_checksum d n < U32 := by
  cases n with
  | zero => exact U32_pos
  | succ m => exact Nat.mod_lt _ U32_pos

/-- The checksum only looks at the bytes `d i % 256` for `i < n`. -/
lemma checksum_congr (d e : Nat → Nat) (n : Nat)
    (h : ∀ i, i < n → d i % 256 = e i % 256) :
    umsbb_calculate_checksum d n = umsbb_calculate_checksum e n := by
  induction n with
  | zero => rfl
  | succ m ih =>
    unfold umsbb_calculate_checksum
    rw [ih (fun i hi => h i (Nat.lt_succ_of_lt hi)), h m (Nat.lt_succ_self m)]

lemma memWrite_in (m src : Nat → Nat) (off n i : Nat) (h1 : off ≤ i) (h2 : i < off + n) :
    memWrite m off src n i = src (i - off) := by
  unfold memWrite
  rw [if_pos ⟨h1, h2⟩]

lemma memWrite_out (m src : Nat → Nat) (off n i : Nat) (h : i < off ∨ off + n ≤ i) :
    memWrite m off src n i = m i := by
  unfold memWrite
  rw [if_neg (by omega)]

/-- Little-endian digit reconstruction: if `w` bytes of memory hold the
base-256 digits of `v`, decoding them yields `v mod 256^w`. -/
lemma decodeLE_digits (w : Nat) : ∀ (m : Nat → Nat) (off v : Nat),
    (∀ j, j < w → m (off + j) = v / 256 ^ j % 256) →
    decodeLE m off w = v % 256 ^ w := by
  induction w with
  | zero => intro m off v _; simp [decodeLE, Nat.mod_one]
  | succ u ih =>
    intro m off v h
    have h0 : m off = v % 256 := by
      have := h 0 (Nat.succ_pos u)
      simpa using this
    have hrest : decodeLE m (off + 1) u = v / 256 % 256 ^ u := by
      refine ih _ _ _ (fun j hj => ?_)
      have e2 : (256 : Nat) ^ (j + 1) = 256 * 256 ^ j := by
        rw [Nat.pow_succ, Nat.mul_comm]
      rw [show off + 1 + j = off + (j + 1) from by omega, h (j + 1) (by omega), e2,
        ← Nat.div_div_eq_div_mul]
    have e2 : (256 : Nat) ^ (u + 1) = 256 * 256 ^ u := by
      rw [Nat.pow_succ, Nat.mul_comm]
    unfold decodeLE
    rw [h0, hrest, Nat.mod_mod_of_dvd _ (dvd_refl 256), e2, Nat.mod_mul]

/-- `decodeLE` only looks at memory bytes mod 256. -/
lemma decodeLE_congr (w : Nat) : ∀ (m m' : Nat → Nat) (off : Nat),
    (∀ j, j < w → m (off + j) % 256 = m' (off + j) % 256) →
    decodeLE m off w = decodeLE m' off w := by
  induction w with
  | zero => intro m m' off _; rfl
  | succ u ih =>
    intro m m' off h
    unfold decodeLE
    rw [ih m m' (off + 1) (fun j hj => by
        rw [show off + 1 + j = off + (j + 1) from by omega]
        exact h (j + 1) (by omega)),
      show m off % 256 = m' off % 256 by simpa using h 0 (Nat.succ_pos u)]

/-- Bytes produced by `encodeHeader` are below 256. -/
lemma encodeHeader_lt (h : MessageHeader) (i : Nat) : encodeHeader h i < 256 := by
  unfold encodeHeader
  repeat' split
  all_goals first
    | exact Nat.mod_lt _ (by norm_num)
    | norm_num

/-- Decoding a header image written by `encodeHeader` recovers the header,
provided the fields fit their C integer widths. -/
lemma decodeHeader_encode (hdr : MessageHeader) (m : Nat → Nat) (off : Nat)
    (hm : ∀ j, j < HEADER_SIZE → m (off + j) = encodeHeader hdr j)
    (h1 : hdr.magic < U32) (h2 : hdr.size < U32) (h3 : hdr.sequence < U64)
    (h4 : hdr.timestamp < U64) (h5 : hdr.checksum < U32) (h6 : hdr.flags < U32) :
    decodeHeader m off = hdr := by
  obtain ⟨mg, sz, sq, tsv, ck, fl⟩ := hdr
  simp only [HEADER_SIZE] at hm
  simp only [U32] at h1 h2 h5 h6
  simp only [U64] at h3 h4
  have e32 : (4294967296 : Nat) = 256 ^ 4 := by norm_num
  have e64 : (18446744073709551616 : Nat) = 256 ^ 8 := by norm_num
  simp only [decodeHeader, MessageHeader.mk.injEq]
  refine ⟨?_, ?_, ?_, ?_, ?_, ?_⟩
  · rw [decodeLE_digits 4 m off mg (fun j hj => by
      rw [hm j (by omega)]; unfold encodeHeader; rw [if_pos (by omega)])]
    exact Nat.mod_eq_of_lt (by omega)
  · rw [decodeLE_digits 4 m (off + 4) sz (fun j hj => by
      rw [Nat.add_assoc, hm (4 + j) (by omega)]; unfold encodeHeader
      rw [if_neg (by omega), if_pos (by omega)]
      simp)]
    exact Nat.mod_eq_of_lt (by omega)
  · rw [decodeLE_digits 8 m (off + 8) sq (fun j hj => by
      rw [Nat.add_assoc, hm (8 + j) (by omega)]; unfold encodeHeader
      rw [if_neg (by omega), if_neg (by omega), if_pos (by omega)]
      simp)]
    exact Nat.mod_eq_of_lt (by omega)
  · rw [decodeLE_digits 8 m (off + 16) tsv (fun j hj => by
      rw [Nat.add_assoc, hm (16 + j) (by omega)]; unfold encodeHeader
      rw [if_neg (by omega), if_neg (by omega), if_neg (by omega), if_pos (by omega)]
      simp)]
    exact Nat.mod_eq_of_lt (by omega)
  · rw [decodeLE_digits 4 m (off + 24) ck (fun j hj => by
      rw [Nat.add_assoc, hm (24 + j) (by omega)]; unfold encodeHeader
      rw [if_neg (by omega), if_neg (by omega), if_neg (by omega), if_neg (by omega),
        if_pos (by omega)]
      simp)]
    exact Nat.mod_eq_of_lt (by omega)
  · rw [decodeLE_digits 4 m (off + 28) fl (fun j hj => by
      rw [Nat.add_assoc, hm (28 + j) (by omega)]; unfold encodeHeader
      rw [if_neg (by omega), if_neg (by omega), if_neg (by omega), if_neg (by omega),
        if_neg (by omega), if_pos (by omega)]
      simp)]
    exact Nat.mod_eq_of_lt (by omega)

/-! ### The system state after a fresh create and a first write -/

/-- The first `umsbb_get_next_handle` call (counter at 1) hands out 2. -/
lemma next_handle_one : umsbb_get_next_handle 1 = 2 := rfl

/-- The segment size of a `size_mb`-MiB buffer: an eighth of the total,
already 64-byte aligned. -/
lemma segment_size_eq (mb : Nat) (h2 : mb ≤ 64) :
    umsbb_align_size (mb * 1024 * 1024 / UMSBB_SEGMENT_COUNT) = mb * 131072 := by
  have e : mb * 1024 * 1024 / UMSBB_SEGMENT_COUNT = 64 * (mb * 2048) := by
    unfold UMSBB_SEGMENT_COUNT
    omega
  rw [e, align_of_mul64 _ (by unfold U32; omega)]
  ring

/-- The buffer record `umsbb_create_buffer` builds from the initial state
(handle 2, segment size written as `size_mb * 131072`). -/
def freshBuffer (size_mb : Nat) (junk : Nat → Nat) : Buffer :=
  { magic := UMSBB_MAGIC_NUMBER
    handle := 2
    size_mb := size_mb
    total_size := size_mb * 1024 * 1024
    segments := fun i =>
      umsbb_init_segment i (fun j => junk (i * (size_mb * 131072) + j)) (size_mb * 131072)
    total_messages_written := 0
    total_messages_read := 0
    total_bytes_written := 0
    total_bytes_read := 0
    write_operations := 0
    read_operations := 0
    failed_writes := 0
    failed_reads := 0
    max_message_size := UMSBB_MAX_MESSAGE_SIZE
    segment_size := size_mb * 131072
    active_segments := UMSBB_SEGMENT_COUNT
    initialized := 1
    last_write_time := 0
    last_read_time := 0
    peak_pending_messages := 0
    current_pending_messages := 0 }

/-- The system state after the first `umsbb_create_buffer` succeeds. -/
def createdSys (mb : Nat) (junk : Nat → Nat) : Sys :=
  { g_buffers := fun h => if h = 2 then some (freshBuffer mb junk) else none
    g_next_handle := 2
    g_active_buffers := 1
    ts_counter := 0 }

/-- Creating the first buffer from the initial state. -/
lemma create_spec (mb : Nat) (junk : Nat → Nat) (h1 : 1 ≤ mb) (h2 : mb ≤ 64) :
    umsbb_create_buffer initialSys mb junk = (2, createdSys mb junk) := by
  unfold umsbb_create_buffer
  rw [if_neg (by omega)]
  simp only [initialSys, next_handle_one, segment_size_eq mb h2]
  rw [if_neg (by norm_num [UMSBB_MAX_BUFFERS])]
  rfl

lemma sub64_zero : sub64 0 0 = 0 := by norm_num [sub64, U64]

/-- With every segment active and empty, the writer picks segment 0. -/
lemma select_write_zero (b : Buffer)
    (h : ∀ i, i < 8 → (b.segments i).active = 1 ∧ segPending (b.segments i) = 0) :
    umsbb_select_write_segment b = 0 := by
  have hstep : ∀ (l : List Nat), (∀ i ∈ l, segPending (b.segments i) = 0) →
      List.foldl
        (fun acc i =>
          if (b.segments i).active ≠ 0 ∧ segPending (b.segments i) < acc.2
          then (i, segPending (b.segments i))
          else acc)
        ((0 : Nat), (0 : Nat)) l = (0, 0) := by
    intro l
    induction l with
    | nil => intro _; rfl
    | cons a t ih =>
      intro hl
      simp only [List.foldl_cons]
      rw [hl a (List.mem_cons_self a t), if_neg (by simp)]
      exact ih (fun i hi => hl i (List.mem_cons_of_mem a hi))
  unfold umsbb_select_write_segment
  have e : List.range UMSBB_SEGMENT_COUNT = 0 :: [1, 2, 3, 4, 5, 6, 7] := rfl
  rw [e, List.foldl_cons]
  have hf0 : (if (b.segments 0).active ≠ 0 ∧ segPending (b.segments 0) < ((0 : Nat), U64 - 1).2
      then ((0 : Nat), segPending (b.segments 0))
      else (0, U64 - 1)) = ((0 : Nat), (0 : Nat)) := by
    rw [(h 0 (by omega)).1, (h 0 (by omega)).2]
    norm_num [U64]
  rw [hf0, hstep [1, 2, 3, 4, 5, 6, 7] (fun i hi => (h i (by simp at hi; omega)).2)]

/-- With all eight segments empty, the writer picks segment 0. -/
lemma select_write_fresh (mb : Nat) (junk : Nat → Nat) :
    umsbb_select_write_segment (freshBuffer mb junk) = 0 := by
  refine select_write_zero _ (fun i hi => ⟨rfl, ?_⟩)
  show sub64 0 0 = 0
  exact sub64_zero

/-- `umsbb_align_size` is monotone below the `uint32` wrap. -/
lemma align_mono (x y : Nat) (hxy : x ≤ y) (hy : y + 63 < U32) :
    umsbb_align_size x ≤ umsbb_align_size y := by
  rw [align_eq x (by omega), align_eq y hy]
  exact Nat.mul_le_mul_right 64 (Nat.div_le_div_right (by omega))

/-- The aligned on-wire size of any admissible message is at most 65600
(= the aligned size of a maximal message: 64-byte header + 64 KiB). -/
lemma total_size_le (s : Nat) (hs2 : s ≤ UMSBB_MAX_MESSAGE_SIZE) :
    umsbb_align_size (HEADER_SIZE + s) ≤ 65600 := by
  have h1 : umsbb_align_size (HEADER_SIZE + s) ≤ umsbb_align_size 65600 := by
    refine align_mono _ _ ?_ (by norm_num [U32])
    unfold HEADER_SIZE UMSBB_MAX_MESSAGE_SIZE at *
    omega
  have h2 : umsbb_align_size 65600 = 65600 := by
    have := align_of_mul64 1025 (by norm_num [U32])
    norm_num at this
    simpa using this
  omega

/-- The aligned on-wire size covers the header and the payload. -/
lemma total_size_ge (s : Nat) (hs2 : s ≤ UMSBB_MAX_MESSAGE_SIZE) :
    HEADER_SIZE + s ≤ umsbb_align_size (HEADER_SIZE + s) :=
  align_ge _ (by unfold HEADER_SIZE UMSBB_MAX_MESSAGE_SIZE at *; norm_num [U32]; omega)

/-- The header the first write on a fresh buffer stores (sequence 1,
fallback-clock timestamp 1). -/
def freshHeader (d : Nat → Nat) (s : Nat) : MessageHeader :=
  { magic := UMSBB_MAGIC_NUMBER
    size := s
    sequence := 1
    timestamp := 1
    checksum := umsbb_calculate_checksum d s
    flags := 0 }

/-- Segment 0 of a fresh buffer, spelled out. -/
lemma freshBuffer_seg0 (mb : Nat) (junk : Nat → Nat) :
    (freshBuffer mb junk).segments 0 =
      umsbb_init_segment 0 (fun j => junk (0 * (mb * 131072) + j)) (mb * 131072) := rfl

/-- Segment 0 after the first write on a fresh buffer: header image at
offset 0, payload at offset 64, write cursor advanced by the aligned total. -/
def freshWrittenSeg (mb : Nat) (junk d : Nat → Nat) (s : Nat) : Segment :=
  { (freshBuffer mb junk).segments 0 with
    write_pos := 0 + umsbb_align_size (HEADER_SIZE + s)
    message_count := 0 + 1
    data := memWrite
        (memWrite ((freshBuffer mb junk).segments 0).data 0
          (encodeHeader (freshHeader d s)) HEADER_SIZE)
        (0 + HEADER_SIZE) d s }

/-- The buffer after the first write on a fresh buffer. -/
def freshWrittenBuffer (mb : Nat) (junk d : Nat → Nat) (s : Nat) : Buffer :=
  { putSegment (freshBuffer mb junk) 0 (freshWrittenSeg mb junk d s) with
    total_messages_written := 1
    total_bytes_written := 0 + s
    write_operations := 1
    last_write_time := 1
    current_pending_messages := 1
    peak_pending_messages := 1 }

/-- The system state after `create` then one successful `write`. -/
def freshWrittenSys (mb : Nat) (junk d : Nat → Nat) (s : Nat) : Sys :=
  { putBuffer (createdSys mb junk) 2 (freshWrittenBuffer mb junk d s) with
    ts_counter := 1 }

/-- Dispatch: a write of a valid size on a found buffer runs `writeToBuffer`. -/
lemma write_message_found (st : Sys) (handle : Nat) (d : Nat → Nat) (s : Nat)
    (buf : Buffer) (hs : ¬(s = 0 ∨ UMSBB_MAX_MESSAGE_SIZE < s))
    (hf : umsbb_find_buffer st handle = some buf) :
    umsbb_write_message st handle (some d) s = writeToBuffer st handle buf d s := by
  unfold umsbb_write_message
  dsimp only
  rw [if_neg hs, hf]

/-- Looking up handle 2 right after the first create finds the fresh buffer. -/
lemma find_created (mb : Nat) (junk : Nat → Nat) :
    umsbb_find_buffer (createdSys mb junk) 2 = some (freshBuffer mb junk) := by
  unfold umsbb_find_buffer createdSys freshBuffer
  norm_num [UMSBB_MAX_BUFFERS]

/-- Committing the first write on a fresh buffer yields `freshWrittenSys`. -/
lemma commitWrite_fresh (mb s : Nat) (junk d : Nat → Nat)
    (h1 : 1 ≤ mb) (hs2 : s ≤ UMSBB_MAX_MESSAGE_SIZE) :
    commitWrite (createdSys mb junk) 2 (freshBuffer mb junk) 0 d s =
      freshWrittenSys mb junk d s := by
  have htot : umsbb_align_size (HEADER_SIZE + s) ≤ 65600 := total_size_le s hs2
  have hwrap : ¬(mb * 131072 < 0 + umsbb_align_size (HEADER_SIZE + s)) := by omega
  unfold commitWrite freshWrittenSys freshWrittenBuffer freshWrittenSeg
  dsimp only
  simp only [freshBuffer_seg0, umsbb_init_segment]
  rw [Nat.zero_mod]
  simp only [if_neg hwrap]
  rfl

/-- Characterization of `create; write` from the initial state: the write
succeeds and produces exactly `freshWrittenSys`. -/
lemma write_fresh (mb s : Nat) (junk d : Nat → Nat)
    (h1 : 1 ≤ mb) (h2 : mb ≤ 64) (hs1 : 1 ≤ s) (hs2 : s ≤ UMSBB_MAX_MESSAGE_SIZE) :
    umsbb_write_message (umsbb_create_buffer initialSys mb junk).2 2 (some d) s =
      (UMSBB_SUCCESS, freshWrittenSys mb junk d s) := by
  have htot : umsbb_align_size (HEADER_SIZE + s) ≤ 65600 := total_size_le s hs2
  rw [create_spec mb junk h1 h2]
  dsimp only
  rw [write_message_found (createdSys mb junk) 2 d s (freshBuffer mb junk)
    (by unfold UMSBB_MAX_MESSAGE_SIZE at hs2 ⊢; omega) (find_created mb junk)]
  unfold writeToBuffer
  dsimp only
  simp only [select_write_fresh, freshBuffer_seg0, umsbb_init_segment]
  rw [if_neg (show ¬(0 + (mb * 131072) < 0 + umsbb_align_size (HEADER_SIZE + s)) by omega)]
  rw [commitWrite_fresh mb s junk d h1 hs2]

/-! ### Reading back -/

/-- Dispatch: a read with non-null pointers and nonzero capacity on a found
buffer runs `readFromBuffer`. -/
lemma read_message_found (st : Sys) (handle bs : Nat) (buf : Buffer)
    (hbs : bs ≠ 0) (hf : umsbb_find_buffer st handle = some buf) :
    umsbb_read_message st handle true bs true = readFromBuffer st handle buf bs := by
  unfold umsbb_read_message
  rw [if_neg (by simp [hbs]), hf]

/-- If segment 0 is active and holds messages, the reader picks it. -/
lemma select_read_first (b : Buffer) (ha : (b.segments 0).active ≠ 0)
    (hc : 0 < (b.segments 0).message_count) :
    umsbb_select_read_segment b = 0 := by
  unfold umsbb_select_read_segment
  have e : List.range UMSBB_SEGMENT_COUNT = 0 :: [1, 2, 3, 4, 5, 6, 7] := rfl
  rw [e, List.find?_cons_of_pos _ (by simp [ha, hc])]

/-- The header decoded at the current read position of the segment the
reader selects (the header `umsbb_read_message` will see next). -/
def pendingHeader (buf : Buffer) : MessageHeader :=
  let seg := buf.segments (umsbb_select_read_segment buf)
  decodeHeader seg.data (seg.read_pos % seg.size)

/-- The payload bytes `umsbb_read_message` would copy out next. -/
def pendingPayload (buf : Buffer) : Nat → Nat :=
  let seg := buf.segments (umsbb_select_read_segment buf)
  fun i => seg.data (seg.read_pos % seg.size + HEADER_SIZE + i) % 256

/-- The `BUFFER_EMPTY` branch on `message_count = 0`. -/
lemma readFromBuffer_empty (st : Sys) (handle bs : Nat) (buf : Buffer)
    (hc : (buf.segments (umsbb_select_read_segment buf)).message_count = 0) :
    readFromBuffer st handle buf bs = ⟨UMSBB_ERROR_BUFFER_EMPTY, st, none, none⟩ := by
  unfold readFromBuffer
  rw [if_pos hc]

/-- The `CORRUPTED_DATA` branch on a bad magic: `failed_reads` is bumped,
nothing else changes, nothing is written out. -/
lemma readFromBuffer_bad_magic (st : Sys) (handle bs : Nat) (buf : Buffer)
    (hc : (buf.segments (umsbb_select_read_segment buf)).message_count ≠ 0)
    (hrw : (buf.segments (umsbb_select_read_segment buf)).read_pos <
           (buf.segments (umsbb_select_read_segment buf)).write_pos)
    (hmagic : (pendingHeader buf).magic ≠ UMSBB_MAGIC_NUMBER) :
    readFromBuffer st handle buf bs =
      ⟨UMSBB_ERROR_CORRUPTED_DATA,
        putBuffer st handle { buf with failed_reads := buf.failed_reads + 1 },
        none, none⟩ := by
  unfold readFromBuffer
  unfold pendingHeader at hmagic
  dsimp only at hmagic ⊢
  rw [if_neg hc, if_neg (by omega), if_pos hmagic]

/-- The `INVALID_SIZE` branch on a too-small caller buffer: the state is
returned unchanged and nothing is written out. -/
lemma readFromBuffer_too_small (st : Sys) (handle bs : Nat) (buf : Buffer)
    (hc : (buf.segments (umsbb_select_read_segment buf)).message_count ≠ 0)
    (hrw : (buf.segments (umsbb_select_read_segment buf)).read_pos <
           (buf.segments (umsbb_select_read_segment buf)).write_pos)
    (hmagic : (pendingHeader buf).magic = UMSBB_MAGIC_NUMBER)
    (hbs : bs < (pendingHeader buf).size) :
    readFromBuffer st handle buf bs = ⟨UMSBB_ERROR_INVALID_SIZE, st, none, none⟩ := by
  unfold readFromBuffer
  unfold pendingHeader at hmagic hbs
  dsimp only at hmagic hbs ⊢
  rw [if_neg hc, if_neg (by omega), if_neg (by simp [hmagic]), if_pos hbs]

/-- The `CORRUPTED_DATA` branch on a checksum mismatch: `failed_reads` is
bumped, the cursors are untouched, the payload was already copied out. -/
lemma readFromBuffer_bad_checksum (st : Sys) (handle bs : Nat) (buf : Buffer)
    (hc : (buf.segments (umsbb_select_read_segment buf)).message_count ≠ 0)
    (hrw : (buf.segments (umsbb_select_read_segment buf)).read_pos <
           (buf.segments (umsbb_select_read_segment buf)).write_pos)
    (hmagic : (pendingHeader buf).magic = UMSBB_MAGIC_NUMBER)
    (hbs : (pendingHeader buf).size ≤ bs)
    (hchk : umsbb_calculate_checksum (pendingPayload buf) (pendingHeader buf).size ≠
            (pendingHeader buf).checksum) :
    readFromBuffer st handle buf bs =
      ⟨UMSBB_ERROR_CORRUPTED_DATA,
        putBuffer st handle { buf with failed_reads := buf.failed_reads + 1 },
        some (pendingPayload buf, (pendingHeader buf).size), none⟩ := by
  unfold readFromBuffer
  unfold pendingHeader at hmagic hbs hchk
  unfold pendingPayload at hchk ⊢
  dsimp only at hmagic hbs hchk ⊢
  rw [if_neg hc, if_neg (by omega), if_neg (by simp [hmagic]), if_neg (by omega), if_pos hchk]
  rfl

/-- The success branch: intact magic and checksum, sufficient capacity. -/
lemma readFromBuffer_success (st : Sys) (handle bs : Nat) (buf : Buffer)
    (hc : (buf.segments (umsbb_select_read_segment buf)).message_count ≠ 0)
    (hrw : (buf.segments (umsbb_select_read_segment buf)).read_pos <
           (buf.segments (umsbb_select_read_segment buf)).write_pos)
    (hmagic : (pendingHeader buf).magic = UMSBB_MAGIC_NUMBER)
    (hbs : (pendingHeader buf).size ≤ bs)
    (hchk : umsbb_calculate_checksum (pendingPayload buf) (pendingHeader buf).size =
            (pendingHeader buf).checksum) :
    readFromBuffer st handle buf bs =
      ⟨UMSBB_SUCCESS,
        commitRead st handle buf (umsbb_select_read_segment buf) (pendingHeader buf),
        some (pendingPayload buf, (pendingHeader buf).size),
        some (pendingHeader buf).size⟩ := by
  unfold readFromBuffer
  unfold pendingHeader at hmagic hbs hchk ⊢
  unfold pendingPayload at hchk ⊢
  dsimp only at hmagic hbs hchk ⊢
  rw [if_neg hc, if_neg (by omega), if_neg (by simp [hmagic]), if_neg (by omega),
    if_neg (by simp [hchk])]

/-! ### The first written message, as stored in memory -/

lemma freshWrittenBuffer_seg0 (mb : Nat) (junk d : Nat → Nat) (s : Nat) :
    (freshWrittenBuffer mb junk d s).segments 0 = freshWrittenSeg mb junk d s := by
  unfold freshWrittenBuffer putSegment
  dsimp only
  rw [if_pos rfl]

/-- Bytes 0..63 of segment 0 after the first write hold the header image. -/
lemma freshWrittenSeg_header (mb : Nat) (junk d : Nat → Nat) (s j : Nat)
    (hj : j < HEADER_SIZE) :
    (freshWrittenSeg mb junk d s).data j = encodeHeader (freshHeader d s) j := by
  unfold freshWrittenSeg
  dsimp only
  rw [memWrite_out _ _ _ _ _ (Or.inl (by omega)),
    memWrite_in _ _ _ _ _ (by omega) (by omega), Nat.sub_zero]

/-- Bytes 64..64+s-1 of segment 0 after the first write hold the payload. -/
lemma freshWrittenSeg_payload (mb : Nat) (junk d : Nat → Nat) (s i : Nat)
    (hi : i < s) :
    (freshWrittenSeg mb junk d s).data (HEADER_SIZE + i) = d i := by
  unfold freshWrittenSeg
  dsimp only
  rw [memWrite_in _ _ _ _ _ (by omega) (by omega)]
  congr 1
  omega

/-- Bytes at or beyond 64+s are untouched by the first write: they still
hold the uninitialized `malloc` contents.  In particular no trailer is
written after the payload. -/
lemma freshWrittenSeg_rest (mb : Nat) (junk d : Nat → Nat) (s k : Nat)
    (hk : HEADER_SIZE + s ≤ k) :
    (freshWrittenSeg mb junk d s).data k = junk k := by
  unfold freshWrittenSeg freshBuffer umsbb_init_segment
  dsimp only
  rw [memWrite_out _ _ _ _ _ (Or.inr (by omega)),
    memWrite_out _ _ _ _ _ (Or.inr (by omega))]
  norm_num

lemma freshWrittenSeg_read_pos (mb : Nat) (junk d : Nat → Nat) (s : Nat) :
    (freshWrittenSeg mb junk d s).read_pos = 0 := rfl

lemma freshWrittenSeg_write_pos (mb : Nat) (junk d : Nat → Nat) (s : Nat) :
    (freshWrittenSeg mb junk d s).write_pos = 0 + umsbb_align_size (HEADER_SIZE + s) := rfl

lemma freshWrittenSeg_size (mb : Nat) (junk d : Nat → Nat) (s : Nat) :
    (freshWrittenSeg mb junk d s).size = mb * 131072 := rfl

lemma freshWrittenSeg_count (mb : Nat) (junk d : Nat → Nat) (s : Nat) :
    (freshWrittenSeg mb junk d s).message_count = 0 + 1 := rfl

lemma freshWrittenSeg_active (mb : Nat) (junk d : Nat → Nat) (s : Nat) :
    (freshWrittenSeg mb junk d s).active = 1 := rfl

/-- After the first write, the reader selects segment 0. -/
lemma select_read_written (mb : Nat) (junk d : Nat → Nat) (s : Nat) :
    umsbb_select_read_segment (freshWrittenBuffer mb junk d s) = 0 := by
  refine select_read_first _ ?_ ?_ <;>
    rw [freshWrittenBuffer_seg0] <;> norm_num [freshWrittenSeg_active, freshWrittenSeg_count]

/-- Decoding the header image of the first written message recovers it. -/
lemma pendingHeader_fresh (mb s : Nat) (junk d : Nat → Nat)
    (hs2 : s ≤ UMSBB_MAX_MESSAGE_SIZE) :
    pendingHeader (freshWrittenBuffer mb junk d s) = freshHeader d s := by
  unfold pendingHeader
  dsimp only
  rw [select_read_written, freshWrittenBuffer_seg0, freshWrittenSeg_read_pos,
    freshWrittenSeg_size, Nat.zero_mod]
  refine decodeHeader_encode _ _ _ (fun j hj => ?_) ?_ ?_ ?_ ?_ ?_ ?_
  · rw [Nat.zero_add, freshWrittenSeg_header mb junk d s j hj]
  · norm_num [freshHeader, UMSBB_MAGIC_NUMBER, U32]
  · unfold freshHeader UMSBB_MAX_MESSAGE_SIZE at *
    dsimp only
    norm_num [U32]
    omega
  · norm_num [freshHeader, U64]
  · norm_num [freshHeader, U64]
  · exact checksum_lt d s
  · norm_num [freshHeader, U32]

/-- The payload bytes the reader will copy out equal the written payload. -/
lemma pendingPayload_fresh (mb s : Nat) (junk d : Nat → Nat) (i : Nat) (hi : i < s) :
    pendingPayload (freshWrittenBuffer mb junk d s) i = d i % 256 := by
  unfold pendingPayload
  rw [select_read_written, freshWrittenBuffer_seg0, freshWrittenSeg_read_pos,
    freshWrittenSeg_size, Nat.zero_mod, Nat.zero_add,
    freshWrittenSeg_payload mb junk d s i hi]

/-- Looking up handle 2 after `create; write` finds the written buffer. -/
lemma find_written (mb s : Nat) (junk d : Nat → Nat) :
    umsbb_find_buffer (freshWrittenSys mb junk d s) 2 =
      some (freshWrittenBuffer mb junk d s) := by
  have hi : (freshWrittenBuffer mb junk d s).initialized = 1 := rfl
  have hm : (freshWrittenBuffer mb junk d s).magic = UMSBB_MAGIC_NUMBER := rfl
  unfold umsbb_find_buffer freshWrittenSys putBuffer
  dsimp only
  rw [if_neg (by norm_num [UMSBB_MAX_BUFFERS])]
  show (if (freshWrittenBuffer mb junk d s).initialized ≠ 0 ∧
      (freshWrittenBuffer mb junk d s).magic = UMSBB_MAGIC_NUMBER
    then some (freshWrittenBuffer mb junk d s) else none) =
    some (freshWrittenBuffer mb junk d s)
  rw [if_pos (And.intro (by rw [hi]; norm_num) hm)]

/-- The count / cursor facts needed to read the first message back. -/
lemma written_read_preconditions (mb s : Nat) (junk d : Nat → Nat)
    (hs2 : s ≤ UMSBB_MAX_MESSAGE_SIZE) :
    ((freshWrittenBuffer mb junk d s).segments
        (umsbb_select_read_segment (freshWrittenBuffer mb junk d s))).message_count ≠ 0 ∧
    ((freshWrittenBuffer mb junk d s).segments
        (umsbb_select_read_segment (freshWrittenBuffer mb junk d s))).read_pos <
      ((freshWrittenBuffer mb junk d s).segments
        (umsbb_select_read_segment (freshWrittenBuffer mb junk d s))).write_pos := by
  rw [select_read_written, freshWrittenBuffer_seg0]
  constructor
  · rw [freshWrittenSeg_count]
    omega
  · rw [freshWrittenSeg_read_pos, freshWrittenSeg_write_pos]
    have hge := total_size_ge s hs2
    have h64 : HEADER_SIZE = 64 := rfl
    omega

/-- The checksum recomputed over the copied-out payload matches the stored
checksum of the first written message. -/
lemma written_checksum_ok (mb s : Nat) (junk d : Nat → Nat)
    (hs2 : s ≤ UMSBB_MAX_MESSAGE_SIZE) :
    umsbb_calculate_checksum (pendingPayload (freshWrittenBuffer mb junk d s))
        (pendingHeader (freshWrittenBuffer mb junk d s)).size =
      (pendingHeader (freshWrittenBuffer mb junk d s)).checksum := by
  rw [pendingHeader_fresh mb s junk d hs2]
  show umsbb_calculate_checksum (pendingPayload (freshWrittenBuffer mb junk d s)) s =
    umsbb_calculate_checksum d s
  refine checksum_congr _ _ s (fun i hi => ?_)
  rw [pendingPayload_fresh mb s junk d i hi, Nat.mod_mod_of_dvd _ (dvd_refl 256)]

/-- C1 (confirmed): round-trip fidelity.  On a freshly created buffer of any
admissible size, `umsbb_write_message` accepts any payload of size
1..65536; the subsequent `umsbb_read_message` with sufficient output
capacity returns `UMSBB_SUCCESS`, stores the written size through
`actual_size`, and fills the output buffer with bytes identical to the
written payload. -/
theorem c1_round_trip_fidelity (mb s cap : Nat) (junk d : Nat → Nat)
    (h1 : 1 ≤ mb) (h2 : mb ≤ 64) (hs1 : 1 ≤ s) (hs2 : s ≤ UMSBB_MAX_MESSAGE_SIZE)
    (hd : ∀ i, i < s → d i < 256) (hcap : s ≤ cap) :
    (umsbb_write_message (umsbb_create_buffer initialSys mb junk).2 2 (some d) s).1 =
      UMSBB_SUCCESS ∧
    (umsbb_read_message
        (umsbb_write_message (umsbb_create_buffer initialSys mb junk).2 2 (some d) s).2
        2 true cap true).err = UMSBB_SUCCESS ∧
    (umsbb_read_message
        (umsbb_write_message (umsbb_create_buffer initialSys mb junk).2 2 (some d) s).2
        2 true cap true).actual = some s ∧
    ∃ f : Nat → Nat,
      (umsbb_read_message
          (umsbb_write_message (umsbb_create_buffer initialSys mb junk).2 2 (some d) s).2
          2 true cap true).out = some (f, s) ∧
      ∀ i, i < s → f i = d i := by
  have hw := write_fresh mb s junk d h1 h2 hs1 hs2
  obtain ⟨hc, hrw⟩ := written_read_preconditions mb s junk d hs2
  have hmagic : (pendingHeader (freshWrittenBuffer mb junk d s)).magic =
      UMSBB_MAGIC_NUMBER := by
    rw [pendingHeader_fresh mb s junk d hs2]
    rfl
  have hbs : (pendingHeader (freshWrittenBuffer mb junk d s)).size ≤ cap := by
    rw [pendingHeader_fresh mb s junk d hs2]
    exact hcap
  have hr : umsbb_read_message (freshWrittenSys mb junk d s) 2 true cap true =
      ⟨UMSBB_SUCCESS,
        commitRead (freshWrittenSys mb junk d s) 2 (freshWrittenBuffer mb junk d s)
          (umsbb_select_read_segment (freshWrittenBuffer mb junk d s))
          (pendingHeader (freshWrittenBuffer mb junk d s)),
        some (pendingPayload (freshWrittenBuffer mb junk d s),
          (pendingHeader (freshWrittenBuffer mb junk d s)).size),
        some (pendingHeader (freshWrittenBuffer mb junk d s)).size⟩ := by
    rw [read_message_found _ _ _ _ (by omega) (find_written mb s junk d),
      readFromBuffer_success _ _ _ _ hc hrw hmagic hbs
        (written_checksum_ok mb s junk d hs2)]
  have hsize : (pendingHeader (freshWrittenBuffer mb junk d s)).size = s := by
    rw [pendingHeader_fresh mb s junk d hs2]
    rfl
  refine ⟨by rw [hw], ?_, ?_, ?_⟩
  · rw [hw]
    dsimp only
    rw [hr]
  · rw [hw]
    dsimp only
    rw [hr]
    dsimp only
    rw [hsize]
  · refine ⟨pendingPayload (freshWrittenBuffer mb junk d s), ?_, fun i hi => ?_⟩
    · rw [hw]
      dsimp only
      rw [hr]
      dsimp only
      rw [hsize]
    · rw [pendingPayload_fresh mb s junk d i hi, Nat.mod_eq_of_lt (hd i hi)]

/-- Witness for C1 at a concrete instance: a 1 MiB buffer, payload byte 7. -/
theorem c1_round_trip_fidelity_witness :
    ((1 : Nat) ≤ 1 ∧ (∀ i : Nat, i < 1 → (fun _ : Nat => 7) i < 256) ∧ (1 : Nat) ≤ 1) ∧
    ((umsbb_write_message (umsbb_create_buffer initialSys 1 (fun _ => 0)).2 2
        (some (fun _ => 7)) 1).1 = UMSBB_SUCCESS ∧
      (umsbb_read_message
          (umsbb_write_message (umsbb_create_buffer initialSys 1 (fun _ => 0)).2 2
            (some (fun _ => 7)) 1).2 2 true 1 true).err = UMSBB_SUCCESS ∧
      (umsbb_read_message
          (umsbb_write_message (umsbb_create_buffer initialSys 1 (fun _ => 0)).2 2
            (some (fun _ => 7)) 1).2 2 true 1 true).actual = some 1 ∧
      ∃ f : Nat → Nat,
        (umsbb_read_message
            (umsbb_write_message (umsbb_create_buffer initialSys 1 (fun _ => 0)).2 2
              (some (fun _ => 7)) 1).2 2 true 1 true).out = some (f, 1) ∧
        ∀ i, i < 1 → f i = (fun _ : Nat => 7) i) :=
  ⟨⟨le_refl 1, fun i _ => by norm_num, le_refl 1⟩,
    c1_round_trip_fidelity 1 1 1 (fun _ => 0) (fun _ => 7)
      (by norm_num) (by norm_num) (by norm_num) (by norm_num [UMSBB_MAX_MESSAGE_SIZE])
      (fun i _ => by norm_num) (by norm_num)⟩

/-- C3 counterexample: after writing the single payload byte 7 on a fresh
buffer, the byte at offset 32 (where the claimed 32-byte header would end and
the payload begin) is 0, not the payload byte, and the four bytes at offset
40 (where the claimed trailer's `end_marker` would sit after the payload
aligned up to 8 bytes) do not decode to 0xDEADBEEF: the code writes a 64-byte
header, the payload at offset 64, and no trailer at all. -/
theorem c3_slot_format_counterexample :
    (umsbb_write_message (umsbb_create_buffer initialSys 1 (fun _ => 0)).2 2
        (some (fun _ => 7)) 1).1 = UMSBB_SUCCESS ∧
    ¬((umsbb_find_buffer
        (umsbb_write_message (umsbb_create_buffer initialSys 1 (fun _ => 0)).2 2
          (some (fun _ => 7)) 1).2 2).elim 0
        (fun b => (b.segments 0).data 32) = 7) ∧
    ¬((umsbb_find_buffer
        (umsbb_write_message (umsbb_create_buffer initialSys 1 (fun _ => 0)).2 2
          (some (fun _ => 7)) 1).2 2).elim 0
        (fun b => decodeLE (b.segments 0).data 40 4) = 0xDEADBEEF) ∧
    ((umsbb_find_buffer
        (umsbb_write_message (umsbb_create_buffer initialSys 1 (fun _ => 0)).2 2
          (some (fun _ => 7)) 1).2 2).elim 0
        (fun b => (b.segments 0).data 64) = 7) := by decide

/-- C3 amended (proved): every message committed by `umsbb_write_message`
occupies, in segment memory, a 64-byte header — `magic` at offset 0, `size`
at 4, `sequence` at 8, `timestamp` at 16, `checksum` at 24, `flags` at 28,
32 reserved zero bytes at 32..63, little-endian (`encodeHeader`) —
immediately followed by the payload at offset 64; no trailer is written
(all bytes past the payload keep their previous (uninitialized) contents),
and the write cursor advances by the total size aligned up to 64 bytes. -/
theorem c3_slot_format_amended (mb s : Nat) (junk d : Nat → Nat)
    (h1 : 1 ≤ mb) (h2 : mb ≤ 64) (hs1 : 1 ≤ s) (hs2 : s ≤ UMSBB_MAX_MESSAGE_SIZE) :
    (umsbb_write_message (umsbb_create_buffer initialSys mb junk).2 2 (some d) s).1 =
      UMSBB_SUCCESS ∧
    ∃ b : Buffer,
      umsbb_find_buffer
          (umsbb_write_message (umsbb_create_buffer initialSys mb junk).2 2
            (some d) s).2 2 = some b ∧
      (∀ j, j < HEADER_SIZE → (b.segments 0).data j = encodeHeader (freshHeader d s) j) ∧
      (∀ i, i < s → (b.segments 0).data (HEADER_SIZE + i) = d i) ∧
      (∀ k, HEADER_SIZE + s ≤ k → (b.segments 0).data k = junk k) ∧
      (b.segments 0).write_pos = 0 + umsbb_align_size (HEADER_SIZE + s) := by
  have hw := write_fresh mb s junk d h1 h2 hs1 hs2
  refine ⟨by rw [hw], freshWrittenBuffer mb junk d s, ?_, ?_, ?_, ?_, ?_⟩
  · rw [hw]
    dsimp only
    exact find_written mb s junk d
  · intro j hj
    rw [freshWrittenBuffer_seg0]
    exact freshWrittenSeg_header mb junk d s j hj
  · intro i hi
    rw [freshWrittenBuffer_seg0]
    exact freshWrittenSeg_payload mb junk d s i hi
  · intro k hk
    rw [freshWrittenBuffer_seg0]
    exact freshWrittenSeg_rest mb junk d s k hk
  · rw [freshWrittenBuffer_seg0]
    exact freshWrittenSeg_write_pos mb junk d s

/-- Witness for the amended C3 at a concrete instance. -/
theorem c3_slot_format_amended_witness :
    ((1 : Nat) ≤ 1 ∧ (1 : Nat) ≤ 65536) ∧
    ((umsbb_write_message (umsbb_create_buffer initialSys 1 (fun _ => 0)).2 2
        (some (fun _ => 9)) 1).1 = UMSBB_SUCCESS ∧
    ∃ b : Buffer,
      umsbb_find_buffer
          (umsbb_write_message (umsbb_create_buffer initialSys 1 (fun _ => 0)).2 2
            (some (fun _ => 9)) 1).2 2 = some b ∧
      (∀ j, j < HEADER_SIZE →
        (b.segments 0).data j = encodeHeader (freshHeader (fun _ => 9) 1) j) ∧
      (∀ i, i < 1 → (b.segments 0).data (HEADER_SIZE + i) = (fun _ : Nat => 9) i) ∧
      (∀ k, HEADER_SIZE + 1 ≤ k → (b.segments 0).data k = (fun _ : Nat => 0) k) ∧
      (b.segments 0).write_pos = 0 + umsbb_align_size (HEADER_SIZE + 1)) :=
  ⟨⟨le_refl 1, by norm_num⟩,
    c3_slot_format_amended 1 1 (fun _ => 0) (fun _ => 9) (le_refl 1) (by norm_num)
      (le_refl 1) (by norm_num [UMSBB_MAX_MESSAGE_SIZE])⟩

/-- C10 (confirmed): when the next pending message's size exceeds the
caller's `buffer_size`, `umsbb_read_message` returns
`UMSBB_ERROR_INVALID_SIZE` (-8), writes nothing through the output pointers,
and returns the system state completely unchanged (read cursor,
`message_count` and all statistics counters included, `failed_reads` not
incremented), so an immediate retry with sufficient capacity returns that
same message successfully. -/
theorem c10_too_small_read_nondestructive (st : Sys) (handle cap cap2 : Nat)
    (buf : Buffer)
    (hf : umsbb_find_buffer st handle = some buf)
    (hc : (buf.segments (umsbb_select_read_segment buf)).message_count ≠ 0)
    (hrw : (buf.segments (umsbb_select_read_segment buf)).read_pos <
           (buf.segments (umsbb_select_read_segment buf)).write_pos)
    (hmagic : (pendingHeader buf).magic = UMSBB_MAGIC_NUMBER)
    (hchk : umsbb_calculate_checksum (pendingPayload buf) (pendingHeader buf).size =
            (pendingHeader buf).checksum)
    (hcap0 : cap ≠ 0) (hcap : cap < (pendingHeader buf).size)
    (hcap20 : cap2 ≠ 0) (hcap2 : (pendingHeader buf).size ≤ cap2) :
    umsbb_read_message st handle true cap true =
      ⟨UMSBB_ERROR_INVALID_SIZE, st, none, none⟩ ∧
    (umsbb_read_message st handle true cap2 true).err = UMSBB_SUCCESS ∧
    (umsbb_read_message st handle true cap2 true).out =
      some (pendingPayload buf, (pendingHeader buf).size) ∧
    (umsbb_read_message st handle true cap2 true).actual =
      some (pendingHeader buf).size := by
  have hretry : umsbb_read_message st handle true cap2 true =
      ⟨UMSBB_SUCCESS,
        commitRead st handle buf (umsbb_select_read_segment buf) (pendingHeader buf),
        some (pendingPayload buf, (pendingHeader buf).size),
        some (pendingHeader buf).size⟩ := by
    rw [read_message_found st handle cap2 buf hcap20 hf,
      readFromBuffer_success st handle cap2 buf hc hrw hmagic hcap2 hchk]
  refine ⟨?_, ?_, ?_, ?_⟩
  · rw [read_message_found st handle cap buf hcap0 hf,
      readFromBuffer_too_small st handle cap buf hc hrw hmagic hcap]
  · rw [hretry]
  · rw [hretry]
  · rw [hretry]

/-- Witness for C10: a two-byte message read with capacity 1, retried with
capacity 2, on the state after `create; write`. -/
theorem c10_too_small_read_nondestructive_witness :
    (umsbb_find_buffer
        (freshWrittenSys 1 (fun _ => 0) (fun _ => 5) 2) 2 =
        some (freshWrittenBuffer 1 (fun _ => 0) (fun _ => 5) 2) ∧
      ((freshWrittenBuffer 1 (fun _ => 0) (fun _ => 5) 2).segments
          (umsbb_select_read_segment
            (freshWrittenBuffer 1 (fun _ => 0) (fun _ => 5) 2))).message_count ≠ 0 ∧
      (1 : Nat) < (pendingHeader (freshWrittenBuffer 1 (fun _ => 0) (fun _ => 5) 2)).size ∧
      (pendingHeader (freshWrittenBuffer 1 (fun _ => 0) (fun _ => 5) 2)).size ≤ 2) ∧
    (umsbb_read_message (freshWrittenSys 1 (fun _ => 0) (fun _ => 5) 2) 2 true 1 true =
        ⟨UMSBB_ERROR_INVALID_SIZE, freshWrittenSys 1 (fun _ => 0) (fun _ => 5) 2,
          none, none⟩ ∧
      (umsbb_read_message (freshWrittenSys 1 (fun _ => 0) (fun _ => 5) 2)
          2 true 2 true).err = UMSBB_SUCCESS ∧
      (umsbb_read_message (freshWrittenSys 1 (fun _ => 0) (fun _ => 5) 2)
          2 true 2 true).out =
        some (pendingPayload (freshWrittenBuffer 1 (fun _ => 0) (fun _ => 5) 2),
          (pendingHeader (freshWrittenBuffer 1 (fun _ => 0) (fun _ => 5) 2)).size) ∧
      (umsbb_read_message (freshWrittenSys 1 (fun _ => 0) (fun _ => 5) 2)
          2 true 2 true).actual =
        some (pendingHeader (freshWrittenBuffer 1 (fun _ => 0) (fun _ => 5) 2)).size) :=
  ⟨⟨find_written 1 2 (fun _ => 0) (fun _ => 5), by decide, by decide, by decide⟩,
    c10_too_small_read_nondestructive
      (freshWrittenSys 1 (fun _ => 0) (fun _ => 5) 2) 2 1 2
      (freshWrittenBuffer 1 (fun _ => 0) (fun _ => 5) 2)
      (find_written 1 2 (fun _ => 0) (fun _ => 5))
      (by decide) (by decide) (by decide) (by decide)
      (by decide) (by decide) (by decide) (by decide)⟩

/-- C9 counterexample: on a valid handle with non-null data, a write of
65537 bytes returns `UMSBB_ERROR_INVALID_PARAMS` (-1), not -7 as the claim
(`MSG_TOO_LARGE`) states. -/
theorem c9_oversize_counterexample :
    (umsbb_write_message (umsbb_create_buffer initialSys 1 (fun _ => 0)).2 2
        (some (fun _ => 0)) 65537).1 = UMSBB_ERROR_INVALID_PARAMS ∧
    (umsbb_write_message (umsbb_create_buffer initialSys 1 (fun _ => 0)).2 2
        (some (fun _ => 0)) 65537).1 ≠ -7 := by decide

/-- C9 amended (proved): for every system state, handle and non-null data
pointer, `umsbb_write_message` with `size > UMSBB_MAX_MESSAGE_SIZE = 65536`
returns `UMSBB_ERROR_INVALID_PARAMS` (-1) — the oversize check shares the
parameter-validation branch and its error code — and leaves the state
unchanged. -/
theorem c9_oversize_amended (st : Sys) (handle : Nat) (d : Nat → Nat) (s : Nat)
    (hs : UMSBB_MAX_MESSAGE_SIZE < s) :
    umsbb_write_message st handle (some d) s = (UMSBB_ERROR_INVALID_PARAMS, st) := by
  unfold umsbb_write_message
  dsimp only
  rw [if_pos (Or.inr hs)]

/-- Witness for the amended C9 at size 65537. -/
theorem c9_oversize_amended_witness :
    UMSBB_MAX_MESSAGE_SIZE < 65537 ∧
    umsbb_write_message initialSys 2 (some (fun _ => 0)) 65537 =
      (UMSBB_ERROR_INVALID_PARAMS, initialSys) :=
  ⟨by norm_num [UMSBB_MAX_MESSAGE_SIZE],
    c9_oversize_amended initialSys 2 (fun _ => 0) 65537
      (by norm_num [UMSBB_MAX_MESSAGE_SIZE])⟩

/-! ### Concrete traces -/

/-- `n` successive `umsbb_write_message` calls with the same arguments. -/
def iterWrite (st : Sys) (handle : Nat) (d : Option (Nat → Nat)) (s : Nat) :
    Nat → Sys
  | 0 => st
  | n + 1 => (umsbb_write_message (iterWrite st handle d s n) handle d s).2

/-- A placeholder buffer for total lookups in trace statements. -/
def dummyBuffer : Buffer :=
  { magic := 0
    handle := 0
    size_mb := 0
    total_size := 0
    segments := fun _ => umsbb_init_segment 0 (fun _ => 0) 0
    total_messages_written := 0
    total_messages_read := 0
    total_bytes_written := 0
    total_bytes_read := 0
    write_operations := 0
    read_operations := 0
    failed_writes := 0
    failed_reads := 0
    max_message_size := 0
    segment_size := 0
    active_segments := 0
    initialized := 0
    last_write_time := 0
    last_read_time := 0
    peak_pending_messages := 0
    current_pending_messages := 0 }

/-- The buffer registered at `handle` (or the placeholder). -/
def bufAt (st : Sys) (handle : Nat) : Buffer := (st.g_buffers handle).getD dummyBuffer

/-- C4 counterexample: after sixteen writes of 52416-byte payloads on a
fresh 1 MiB buffer, the segment the writer selects holds 104960 in-flight
bytes — at least 80% of its 131072-byte capacity — yet the next write
returns `UMSBB_SUCCESS`, not THROTTLED (-8): the code has no high-water-mark
admission control. -/
theorem c4_hwm_counterexample :
    (4 * (((bufAt (iterWrite (umsbb_create_buffer initialSys 1 (fun _ => 0)).2 2
          (some (fun _ => 0)) 52416 16) 2)).segments
        (umsbb_select_write_segment (bufAt (iterWrite
          (umsbb_create_buffer initialSys 1 (fun _ => 0)).2 2
          (some (fun _ => 0)) 52416 16) 2))).size ≤
      5 * ((((bufAt (iterWrite (umsbb_create_buffer initialSys 1 (fun _ => 0)).2 2
          (some (fun _ => 0)) 52416 16) 2)).segments
        (umsbb_select_write_segment (bufAt (iterWrite
          (umsbb_create_buffer initialSys 1 (fun _ => 0)).2 2
          (some (fun _ => 0)) 52416 16) 2))).write_pos -
        (((bufAt (iterWrite (umsbb_create_buffer initialSys 1 (fun _ => 0)).2 2
          (some (fun _ => 0)) 52416 16) 2)).segments
        (umsbb_select_write_segment (bufAt (iterWrite
          (umsbb_create_buffer initialSys 1 (fun _ => 0)).2 2
          (some (fun _ => 0)) 52416 16) 2))).read_pos)) ∧
    (umsbb_write_message (iterWrite (umsbb_create_buffer initialSys 1 (fun _ => 0)).2 2
        (some (fun _ => 0)) 52416 16) 2 (some (fun _ => 0)) 1).1 = UMSBB_SUCCESS ∧
    (umsbb_write_message (iterWrite (umsbb_create_buffer initialSys 1 (fun _ => 0)).2 2
        (some (fun _ => 0)) 52416 16) 2 (some (fun _ => 0)) 1).1 ≠ -8 := by decide

/-- C4 amended (proved): `umsbb_write_message` implements no high-water-mark
admission: its only outcomes are SUCCESS, INVALID_PARAMS, INVALID_HANDLE
and BUFFER_FULL; it never returns THROTTLED (-8), regardless of how full
the selected segment is. -/
theorem c4_no_throttle_amended (st : Sys) (handle : Nat)
    (data : Option (Nat → Nat)) (s : Nat) :
    (umsbb_write_message st handle data s).1 = UMSBB_SUCCESS ∨
    (umsbb_write_message st handle data s).1 = UMSBB_ERROR_INVALID_PARAMS ∨
    (umsbb_write_message st handle data s).1 = UMSBB_ERROR_INVALID_HANDLE ∨
    (umsbb_write_message st handle data s).1 = UMSBB_ERROR_BUFFER_FULL := by
  unfold umsbb_write_message
  cases data with
  | none => right; left; rfl
  | some d =>
    dsimp only
    split
    · right; left; rfl
    · cases hf : umsbb_find_buffer st handle with
      | none => right; right; left; rfl
      | some buf =>
        unfold writeToBuffer
        dsimp only
        split
        · right; right; right; rfl
        · left; rfl

/-- A found buffer really is the registry entry. -/
lemma find_buffer_eq_some (st : Sys) (h : Nat) (b : Buffer)
    (hf : umsbb_find_buffer st h = some b) : st.g_buffers h = some b := by
  unfold umsbb_find_buffer at hf
  split at hf
  · exact absurd hf (by simp)
  · cases hg : st.g_buffers h with
    | none => rw [hg] at hf; exact absurd hf (by simp)
    | some b0 =>
      rw [hg] at hf
      dsimp only at hf
      split at hf
      · exact hf
      · exact absurd hf (by simp)

/-- C5 (confirmed): frame property of failed writes.  Whenever
`umsbb_write_message` returns a nonzero status, the resulting system state
is either completely unchanged or differs only in that the addressed
buffer's `failed_writes` counter is incremented; consequently no sequence
number is consumed (`total_messages_written` unchanged), no segment's bytes,
write cursor or message count change, and no statistics counter other than
`failed_writes` changes, in any buffer. -/
theorem c5_failed_write_frame (st : Sys) (handle : Nat)
    (data : Option (Nat → Nat)) (s : Nat)
    (hfail : (umsbb_write_message st handle data s).1 ≠ UMSBB_SUCCESS) :
    ((umsbb_write_message st handle data s).2 = st ∨
      ∃ b, umsbb_find_buffer st handle = some b ∧
        (umsbb_write_message st handle data s).2 =
          putBuffer st handle { b with failed_writes := b.failed_writes + 1 }) ∧
    (∀ h b b', st.g_buffers h = some b →
      (umsbb_write_message st handle data s).2.g_buffers h = some b' →
      b'.segments = b.segments ∧
      b'.total_messages_written = b.total_messages_written ∧
      b'.total_messages_read = b.total_messages_read ∧
      b'.total_bytes_written = b.total_bytes_written ∧
      b'.total_bytes_read = b.total_bytes_read ∧
      b'.write_operations = b.write_operations ∧
      b'.read_operations = b.read_operations ∧
      b'.failed_reads = b.failed_reads ∧
      b'.current_pending_messages = b.current_pending_messages ∧
      b'.peak_pending_messages = b.peak_pending_messages ∧
      (b'.failed_writes = b.failed_writes ∨ b'.failed_writes = b.failed_writes + 1)) ∧
    (umsbb_write_message st handle data s).2.ts_counter = st.ts_counter := by
  have hmain : (umsbb_write_message st handle data s).2 = st ∨
      ∃ b, umsbb_find_buffer st handle = some b ∧
        (umsbb_write_message st handle data s).2 =
          putBuffer st handle { b with failed_writes := b.failed_writes + 1 } := by
    unfold umsbb_write_message at hfail ⊢
    cases data with
    | none => left; rfl
    | some d =>
      dsimp only at hfail ⊢
      by_cases hsz : s = 0 ∨ UMSBB_MAX_MESSAGE_SIZE < s
      · rw [if_pos hsz]
        left; rfl
      · rw [if_neg hsz] at hfail ⊢
        cases hf : umsbb_find_buffer st handle with
        | none => left; rfl
        | some buf =>
          rw [hf] at hfail
          dsimp only at hfail ⊢
          unfold writeToBuffer at hfail ⊢
          dsimp only at hfail ⊢
          by_cases hfull :
            (buf.segments (umsbb_select_write_segment buf)).read_pos +
                (buf.segments (umsbb_select_write_segment buf)).size <
              (buf.segments (umsbb_select_write_segment buf)).write_pos +
                umsbb_align_size (HEADER_SIZE + s)
          · rw [if_pos hfull]
            right
            exact ⟨buf, rfl, rfl⟩
          · rw [if_neg hfull] at hfail
            exact absurd rfl hfail
  refine ⟨hmain, ?_, ?_⟩
  · intro h b b' hb hb'
    rcases hmain with heq | ⟨b0, hfind, heq⟩
    · rw [heq, hb] at hb'
      obtain rfl := Option.some.inj hb'
      exact ⟨rfl, rfl, rfl, rfl, rfl, rfl, rfl, rfl, rfl, rfl, Or.inl rfl⟩
    · rw [heq] at hb'
      unfold putBuffer at hb'
      dsimp only at hb'
      by_cases hh : h = handle
      · subst hh
        rw [if_pos rfl] at hb'
        obtain rfl := Option.some.inj hb'
        have hb0 : b = b0 :=
          (Option.some.inj ((find_buffer_eq_some st h b0 hfind).symm.trans hb)).symm
        subst hb0
        exact ⟨rfl, rfl, rfl, rfl, rfl, rfl, rfl, rfl, rfl, rfl, Or.inr rfl⟩
      · rw [if_neg hh] at hb'
        rw [hb] at hb'
        obtain rfl := Option.some.inj hb'
        exact ⟨rfl, rfl, rfl, rfl, rfl, rfl, rfl, rfl, rfl, rfl, Or.inl rfl⟩
  · rcases hmain with heq | ⟨b0, _, heq⟩
    · rw [heq]
    · rw [heq]; rfl

/-- Witness for C5: a zero-size write fails with INVALID_PARAMS and leaves
the initial state untouched. -/
theorem c5_failed_write_frame_witness :
    (umsbb_write_message initialSys 2 (some (fun _ => 0)) 0).1 ≠ UMSBB_SUCCESS ∧
    (((umsbb_write_message initialSys 2 (some (fun _ => 0)) 0).2 = initialSys ∨
      ∃ b, umsbb_find_buffer initialSys 2 = some b ∧
        (umsbb_write_message initialSys 2 (some (fun _ => 0)) 0).2 =
          putBuffer initialSys 2 { b with failed_writes := b.failed_writes + 1 }) ∧
    (∀ h b b', initialSys.g_buffers h = some b →
      (umsbb_write_message initialSys 2 (some (fun _ => 0)) 0).2.g_buffers h = some b' →
      b'.segments = b.segments ∧
      b'.total_messages_written = b.total_messages_written ∧
      b'.total_messages_read = b.total_messages_read ∧
      b'.total_bytes_written = b.total_bytes_written ∧
      b'.total_bytes_read = b.total_bytes_read ∧
      b'.write_operations = b.write_operations ∧
      b'.read_operations = b.read_operations ∧
      b'.failed_reads = b.failed_reads ∧
      b'.current_pending_messages = b.current_pending_messages ∧
      b'.peak_pending_messages = b.peak_pending_messages ∧
      (b'.failed_writes = b.failed_writes ∨ b'.failed_writes = b.failed_writes + 1)) ∧
    (umsbb_write_message initialSys 2 (some (fun _ => 0)) 0).2.ts_counter =
      initialSys.ts_counter) :=
  ⟨by decide,
    c5_failed_write_frame initialSys 2 (some (fun _ => 0)) 0 (by decide)⟩

/-! ### Corrupted reads -/

/-- Validity facts recorded by a successful lookup. -/
lemma find_buffer_props (st : Sys) (h : Nat) (b : Buffer)
    (hf : umsbb_find_buffer st h = some b) :
    h ≠ 0 ∧ h < UMSBB_MAX_BUFFERS ∧ b.initialized ≠ 0 ∧
      b.magic = UMSBB_MAGIC_NUMBER := by
  unfold umsbb_find_buffer at hf
  by_cases hb : h = 0 ∨ UMSBB_MAX_BUFFERS ≤ h
  · rw [if_pos hb] at hf
    exact absurd hf (by simp)
  · rw [if_neg hb] at hf
    push_neg at hb
    cases hg : st.g_buffers h with
    | none => rw [hg] at hf; exact absurd hf (by simp)
    | some b0 =>
      rw [hg] at hf
      dsimp only at hf
      by_cases hcond : b0.initialized ≠ 0 ∧ b0.magic = UMSBB_MAGIC_NUMBER
      · rw [if_pos hcond] at hf
        obtain rfl := Option.some.inj hf
        exact ⟨hb.1, by omega, hcond.1, hcond.2⟩
      · rw [if_neg hcond] at hf
        exact absurd hf (by simp)

/-- Lookup after storing a valid buffer at a valid handle. -/
lemma find_putBuffer (st : Sys) (handle : Nat) (b : Buffer)
    (h0 : handle ≠ 0) (h256 : handle < UMSBB_MAX_BUFFERS)
    (hi : b.initialized ≠ 0) (hm : b.magic = UMSBB_MAGIC_NUMBER) :
    umsbb_find_buffer (putBuffer st handle b) handle = some b := by
  have h256' : UMSBB_MAX_BUFFERS = 256 := rfl
  unfold umsbb_find_buffer putBuffer
  dsimp only
  rw [if_neg (by omega), if_pos rfl]
  show (if b.initialized ≠ 0 ∧ b.magic = UMSBB_MAGIC_NUMBER then some b else none) =
    some b
  rw [if_pos ⟨hi, hm⟩]

/-- The second `BUFFER_EMPTY` branch (`read_pos ≥ write_pos`). -/
lemma readFromBuffer_empty2 (st : Sys) (handle bs : Nat) (buf : Buffer)
    (hc : (buf.segments (umsbb_select_read_segment buf)).message_count ≠ 0)
    (hwr : (buf.segments (umsbb_select_read_segment buf)).write_pos ≤
           (buf.segments (umsbb_select_read_segment buf)).read_pos) :
    readFromBuffer st handle buf bs = ⟨UMSBB_ERROR_BUFFER_EMPTY, st, none, none⟩ := by
  unfold readFromBuffer
  rw [if_neg hc, if_pos hwr]

/-- Complete branch analysis of a read that reports `CORRUPTED_DATA`: it
happens exactly on a bad magic or a bad checksum, and in both cases the
only state change is the `failed_reads` increment on the addressed buffer. -/
lemma readFromBuffer_cases (st : Sys) (handle bs : Nat) (buf : Buffer) :
    (readFromBuffer st handle buf bs).err ≠ UMSBB_ERROR_CORRUPTED_DATA ∨
    ((buf.segments (umsbb_select_read_segment buf)).message_count ≠ 0 ∧
     (buf.segments (umsbb_select_read_segment buf)).read_pos <
       (buf.segments (umsbb_select_read_segment buf)).write_pos ∧
     ((pendingHeader buf).magic ≠ UMSBB_MAGIC_NUMBER ∨
      ((pendingHeader buf).magic = UMSBB_MAGIC_NUMBER ∧
       (pendingHeader buf).size ≤ bs ∧
       umsbb_calculate_checksum (pendingPayload buf) (pendingHeader buf).size ≠
         (pendingHeader buf).checksum)) ∧
     (readFromBuffer st handle buf bs).st =
       putBuffer st handle { buf with failed_reads := buf.failed_reads + 1 }) := by
  by_cases hc1 : (buf.segments (umsbb_select_read_segment buf)).message_count = 0
  · left
    rw [readFromBuffer_empty st handle bs buf hc1]
    norm_num [UMSBB_ERROR_BUFFER_EMPTY, UMSBB_ERROR_CORRUPTED_DATA]
  by_cases hc2 : (buf.segments (umsbb_select_read_segment buf)).write_pos ≤
      (buf.segments (umsbb_select_read_segment buf)).read_pos
  · left
    rw [readFromBuffer_empty2 st handle bs buf hc1 hc2]
    norm_num [UMSBB_ERROR_BUFFER_EMPTY, UMSBB_ERROR_CORRUPTED_DATA]
  by_cases hc3 : (pendingHeader buf).magic = UMSBB_MAGIC_NUMBER
  · by_cases hc4 : bs < (pendingHeader buf).size
    · left
      rw [readFromBuffer_too_small st handle bs buf hc1 (by omega) hc3 hc4]
      norm_num [UMSBB_ERROR_INVALID_SIZE, UMSBB_ERROR_CORRUPTED_DATA]
    · by_cases hc5 : umsbb_calculate_checksum (pendingPayload buf)
          (pendingHeader buf).size = (pendingHeader buf).checksum
      · left
        rw [readFromBuffer_success st handle bs buf hc1 (by omega) hc3 (by omega) hc5]
        norm_num [UMSBB_SUCCESS, UMSBB_ERROR_CORRUPTED_DATA]
      · right
        refine ⟨hc1, by omega, Or.inr ⟨hc3, by omega, hc5⟩, ?_⟩
        rw [readFromBuffer_bad_checksum st handle bs buf hc1 (by omega) hc3 (by omega) hc5]
  · right
    refine ⟨hc1, by omega, Or.inl hc3, ?_⟩
    rw [readFromBuffer_bad_magic st handle bs buf hc1 (by omega) hc3]

/-- C6 amended (proved): whenever `umsbb_read_message` returns
`CORRUPTED_DATA` (-6), the failure counter `failed_reads` is incremented but
nothing else changes — in particular the read cursor and `message_count` are
untouched, so the corrupt message is NOT dropped: it stays at the head of
the selected segment and the immediately following read on the same buffer
returns `CORRUPTED_DATA` again (the bus stops delivering from that segment
instead of continuing). -/
theorem c6_corrupted_read_amended (st : Sys) (handle bs : Nat)
    (h6 : (umsbb_read_message st handle true bs true).err = UMSBB_ERROR_CORRUPTED_DATA) :
    ∃ b, umsbb_find_buffer st handle = some b ∧
      (umsbb_read_message st handle true bs true).st =
        putBuffer st handle { b with failed_reads := b.failed_reads + 1 } ∧
      (umsbb_read_message (umsbb_read_message st handle true bs true).st
          handle true bs true).err = UMSBB_ERROR_CORRUPTED_DATA := by
  have hbs : bs ≠ 0 := by
    intro h0
    rw [h0] at h6
    unfold umsbb_read_message at h6
    rw [if_pos (by simp)] at h6
    simp [UMSBB_ERROR_INVALID_PARAMS, UMSBB_ERROR_CORRUPTED_DATA] at h6
  cases hf : umsbb_find_buffer st handle with
  | none =>
    exfalso
    unfold umsbb_read_message at h6
    rw [if_neg (by simp [hbs]), hf] at h6
    dsimp only at h6
    simp [UMSBB_ERROR_INVALID_HANDLE, UMSBB_ERROR_CORRUPTED_DATA] at h6
  | some b =>
    have hr := read_message_found st handle bs b hbs hf
    rw [hr] at h6 ⊢
    rcases readFromBuffer_cases st handle bs b with hne | ⟨hc1, hc2, hmc, hst⟩
    · exact absurd h6 hne
    refine ⟨b, rfl, hst, ?_⟩
    rw [hst]
    obtain ⟨h0, h256, hinit, hmag⟩ := find_buffer_props st handle b hf
    have hf2 : umsbb_find_buffer
        (putBuffer st handle { b with failed_reads := b.failed_reads + 1 }) handle =
        some { b with failed_reads := b.failed_reads + 1 } :=
      find_putBuffer st handle _ h0 h256 hinit hmag
    rw [read_message_found _ handle bs _ hbs hf2]
    have hc1b : (({ b with failed_reads := b.failed_reads + 1 } : Buffer).segments
        (umsbb_select_read_segment
          { b with failed_reads := b.failed_reads + 1 })).message_count ≠ 0 := hc1
    have hc2b : (({ b with failed_reads := b.failed_reads + 1 } : Buffer).segments
          (umsbb_select_read_segment
            { b with failed_reads := b.failed_reads + 1 })).read_pos <
        (({ b with failed_reads := b.failed_reads + 1 } : Buffer).segments
          (umsbb_select_read_segment
            { b with failed_reads := b.failed_reads + 1 })).write_pos := hc2
    rcases hmc with hbad | ⟨hm, hle, hchk⟩
    · have hbadb : (pendingHeader
          { b with failed_reads := b.failed_reads + 1 }).magic ≠
          UMSBB_MAGIC_NUMBER := hbad
      rw [readFromBuffer_bad_magic _ handle bs _ hc1b hc2b hbadb]
    · have hmb : (pendingHeader
          { b with failed_reads := b.failed_reads + 1 }).magic =
          UMSBB_MAGIC_NUMBER := hm
      have hleb : (pendingHeader
          { b with failed_reads := b.failed_reads + 1 }).size ≤ bs := hle
      have hchkb : umsbb_calculate_checksum
            (pendingPayload { b with failed_reads := b.failed_reads + 1 })
            (pendingHeader { b with failed_reads := b.failed_reads + 1 }).size ≠
          (pendingHeader { b with failed_reads := b.failed_reads + 1 }).checksum := hchk
      rw [readFromBuffer_bad_checksum _ handle bs _ hc1b hc2b hmb hleb hchkb]

/-- Memory with bit `bit` of the byte at `byteIdx` flipped. -/
def flipData (m : Nat → Nat) (byteIdx bit : Nat) : Nat → Nat :=
  fun k => if k = byteIdx then m k ^^^ 2 ^ bit else m k

/-- An external agent flips bit `bit` of the byte at index `byteIdx` of
segment `i`'s memory, in place, on the buffer registered at `handle`
(the corruption scenario of the spec: memory is modified between commit
and consume, no cursor or counter changes). -/
def flipStoredBit (st : Sys) (handle i byteIdx bit : Nat) : Sys :=
  match st.g_buffers handle with
  | none => st
  | some b =>
    putBuffer st handle
      (putSegment b i
        { b.segments i with data := flipData (b.segments i).data byteIdx bit })

/-- A fresh buffer holding one 1-byte message whose stored magic field has
its lowest bit flipped by an external agent. -/
def corruptedOneMsgSys : Sys :=
  flipStoredBit
    (umsbb_write_message (umsbb_create_buffer initialSys 1 (fun _ => 0)).2 2
      (some (fun _ => 7)) 1).2 2 0 0 0

/-- C6 counterexample: reading the corrupted message returns
`CORRUPTED_DATA` and increments `failed_reads`, but the message is NOT
dropped — `message_count` stays 1 and the read cursor stays 0, so the very
next read hits the same corrupt message and returns `CORRUPTED_DATA` again;
the claim that the message is removed and the bus continues is false. -/
theorem c6_corrupt_drop_counterexample :
    (umsbb_read_message corruptedOneMsgSys 2 true 16 true).err =
      UMSBB_ERROR_CORRUPTED_DATA ∧
    (bufAt (umsbb_read_message corruptedOneMsgSys 2 true 16 true).st 2).failed_reads
      = 1 ∧
    ((bufAt (umsbb_read_message corruptedOneMsgSys 2 true 16 true).st 2).segments 0
      ).message_count = 1 ∧
    ((bufAt (umsbb_read_message corruptedOneMsgSys 2 true 16 true).st 2).segments 0
      ).read_pos = 0 ∧
    (umsbb_read_message (umsbb_read_message corruptedOneMsgSys 2 true 16 true).st
        2 true 16 true).err = UMSBB_ERROR_CORRUPTED_DATA := by decide

/-- Witness for the amended C6 on the concrete corrupted state. -/
theorem c6_corrupted_read_amended_witness :
    (umsbb_read_message corruptedOneMsgSys 2 true 16 true).err =
      UMSBB_ERROR_CORRUPTED_DATA ∧
    ∃ b, umsbb_find_buffer corruptedOneMsgSys 2 = some b ∧
      (umsbb_read_message corruptedOneMsgSys 2 true 16 true).st =
        putBuffer corruptedOneMsgSys 2
          { b with failed_reads := b.failed_reads + 1 } ∧
      (umsbb_read_message (umsbb_read_message corruptedOneMsgSys 2 true 16 true).st
          2 true 16 true).err = UMSBB_ERROR_CORRUPTED_DATA :=
  ⟨by decide, c6_corrupted_read_amended corruptedOneMsgSys 2 16 (by decide)⟩

/-! ### A single flipped bit always changes a byte, a decoded field,
and the checksum -/

/-- Flipping one of the low 8 bits of a byte changes its value mod 256. -/
lemma xor_byte_ne (x bit : Nat) (hx : x < 256) (hbit : bit < 8) :
    (x ^^^ 2 ^ bit) % 256 ≠ x % 256 := by
  have h2 : (2 : Nat) ^ bit < 256 := by
    have : (2 : Nat) ^ bit ≤ 2 ^ 7 := Nat.pow_le_pow_right (by norm_num) (by omega)
    omega
  have hxor : x ^^^ 2 ^ bit < 256 := by
    have h8 : (256 : Nat) = 2 ^ 8 := by norm_num
    rw [h8] at hx h2 ⊢
    exact Nat.xor_lt_two_pow hx h2
  rw [Nat.mod_eq_of_lt hxor, Nat.mod_eq_of_lt hx]
  intro h
  have hzero : (2 : Nat) ^ bit = 0 := by
    have h2 := congrArg (fun z => x ^^^ z) h
    simp only [← Nat.xor_assoc, Nat.xor_self, Nat.zero_xor] at h2
    exact h2
  have : 0 < (2 : Nat) ^ bit := Nat.pos_pow_of_pos bit (by norm_num)
  omega

/-- Two memories that agree on a window except at one byte (mod 256)
decode to different values over that window. -/
lemma decodeLE_ne_of_byte_ne (w : Nat) : ∀ (m m' : Nat → Nat) (off j : Nat),
    j < w →
    (∀ t, t < w → t ≠ j → m' (off + t) % 256 = m (off + t) % 256) →
    m' (off + j) % 256 ≠ m (off + j) % 256 →
    decodeLE m' off w ≠ decodeLE m off w := by
  induction w with
  | zero => intro m m' off j hj; omega
  | succ u ih =>
    intro m m' off j hj hagree hne
    unfold decodeLE
    rcases Nat.eq_zero_or_pos j with rfl | hjpos
    · have hrest : decodeLE m' (off + 1) u = decodeLE m (off + 1) u := by
        refine decodeLE_congr u _ _ _ (fun t ht => ?_)
        rw [show off + 1 + t = off + (t + 1) from by omega]
        exact hagree (t + 1) (by omega) (by omega)
      have h0 : m' off % 256 ≠ m off % 256 := by simpa using hne
      have hb1 : m' off % 256 < 256 := Nat.mod_lt _ (by norm_num)
      have hb2 : m off % 256 < 256 := Nat.mod_lt _ (by norm_num)
      rw [hrest]
      omega
    · obtain ⟨t0, rfl⟩ : ∃ t0, j = t0 + 1 := ⟨j - 1, by omega⟩
      have h0 : m' off % 256 = m off % 256 := by simpa using hagree 0 (by omega) (by omega)
      have hrest : decodeLE m' (off + 1) u ≠ decodeLE m (off + 1) u := by
        refine ih m m' (off + 1) t0 (by omega) (fun t ht hne2 => ?_) ?_
        · rw [show off + 1 + t = off + (t + 1) from by omega]
          exact hagree (t + 1) (by omega) (by omega)
        · rw [show off + 1 + t0 = off + (t0 + 1) from by omega]
          exact hne
      rw [h0]
      omega

/-- One multiplication-accumulate step of the checksum is injective in the
accumulator (31 is invertible mod 2^32). -/
lemma checksum_step_inj (c1 c2 b : Nat) (h1 : c1 < U32) (h2 : c2 < U32)
    (h : (c1 * 31 + b) % U32 = (c2 * 31 + b) % U32) : c1 = c2 := by
  have hmod : c1 * 31 + b ≡ c2 * 31 + b [MOD U32] := h
  have hmul : c1 * 31 ≡ c2 * 31 [MOD U32] := Nat.ModEq.add_right_cancel' b hmod
  have hmul' : 31 * c1 ≡ 31 * c2 [MOD U32] := by simpa [Nat.mul_comm] using hmul
  have hgcd : Nat.gcd U32 31 = 1 := by norm_num [U32]
  exact Nat.ModEq.eq_of_lt_of_lt (Nat.ModEq.cancel_left_of_coprime hgcd hmul') h1 h2

/-- One step with equal accumulators and different bytes gives different
results (the byte enters the low bits directly). -/
lemma checksum_step_byte_ne (c b1 b2 : Nat) (hb1 : b1 < 256) (hb2 : b2 < 256)
    (hne : b1 ≠ b2) : (c * 31 + b1) % U32 ≠ (c * 31 + b2) % U32 := by
  intro h
  have hmod : c * 31 + b1 ≡ c * 31 + b2 [MOD U32] := h
  have hb : b1 ≡ b2 [MOD U32] := Nat.ModEq.add_left_cancel' (c * 31) hmod
  have : b1 = b2 := Nat.ModEq.eq_of_lt_of_lt hb (by norm_num [U32]; omega) (by norm_num [U32]; omega)
  exact hne this

/-- Changing exactly one byte of the hashed region changes the checksum:
a flipped payload bit is always detected. -/
lemma checksum_ne_of_byte_ne (n : Nat) : ∀ (f g : Nat → Nat) (i : Nat), i < n →
    (∀ j, j < n → j ≠ i → f j % 256 = g j % 256) →
    f i % 256 ≠ g i % 256 →
    umsbb_calculate_checksum f n ≠ umsbb_calculate_checksum g n := by
  induction n with
  | zero => intro f g i hi; omega
  | succ m ih =>
    intro f g i hi hagree hne
    unfold umsbb_calculate_checksum
    rcases Nat.lt_or_ge i m with him | him
    · -- the differing byte is in the prefix: the accumulators differ and
      -- the step is injective in the accumulator
      have hpre : umsbb_calculate_checksum f m ≠ umsbb_calculate_checksum g m :=
        ih f g i him (fun j hj hji => hagree j (by omega) hji) hne
      have hlast : f m % 256 = g m % 256 := hagree m (by omega) (by omega)
      intro h
      rw [hlast] at h
      exact hpre (checksum_step_inj _ _ _ (checksum_lt f m) (checksum_lt g m) h)
    · -- the differing byte is the last one
      have hi' : i = m := by omega
      subst hi'
      have hpre : umsbb_calculate_checksum f i = umsbb_calculate_checksum g i :=
        checksum_congr f g i (fun j hj => hagree j (by omega) (by omega))
      rw [hpre]
      exact checksum_step_byte_ne _ _ _ (Nat.mod_lt _ (by norm_num))
        (Nat.mod_lt _ (by norm_num)) (by omega)

/-! ### Reading a message with one flipped bit -/

lemma putSegment_seg (b : Buffer) (i : Nat) (sg : Segment) :
    (putSegment b i sg).segments i = sg := by
  unfold putSegment
  dsimp only
  rw [if_pos rfl]

/-- Segment 0 after the first write with one stored bit flipped. -/
def flippedSeg (mb s byteIdx bit : Nat) (junk d : Nat → Nat) : Segment :=
  { freshWrittenSeg mb junk d s with
    data := flipData (freshWrittenSeg mb junk d s).data byteIdx bit }

/-- The written buffer with one stored bit flipped in segment 0. -/
def flippedBuffer (mb s byteIdx bit : Nat) (junk d : Nat → Nat) : Buffer :=
  putSegment (freshWrittenBuffer mb junk d s) 0 (flippedSeg mb s byteIdx bit junk d)

lemma flip_written_eq (mb s byteIdx bit : Nat) (junk d : Nat → Nat) :
    flipStoredBit (freshWrittenSys mb junk d s) 2 0 byteIdx bit =
      putBuffer (freshWrittenSys mb junk d s) 2
        (flippedBuffer mb s byteIdx bit junk d) := by
  unfold flipStoredBit
  have hg : (freshWrittenSys mb junk d s).g_buffers 2 =
      some (freshWrittenBuffer mb junk d s) := rfl
  rw [hg]
  dsimp only
  unfold flippedBuffer flippedSeg
  rw [freshWrittenBuffer_seg0]

lemma flippedBuffer_seg0 (mb s byteIdx bit : Nat) (junk d : Nat → Nat) :
    (flippedBuffer mb s byteIdx bit junk d).segments 0 =
      flippedSeg mb s byteIdx bit junk d := by
  unfold flippedBuffer
  exact putSegment_seg _ 0 _

lemma select_read_flipped (mb s byteIdx bit : Nat) (junk d : Nat → Nat) :
    umsbb_select_read_segment (flippedBuffer mb s byteIdx bit junk d) = 0 := by
  refine select_read_first _ ?_ ?_ <;> rw [flippedBuffer_seg0]
  · show (1 : Nat) ≠ 0
    omega
  · show 0 < 0 + 1
    omega

lemma find_flipped (mb s byteIdx bit : Nat) (junk d : Nat → Nat) :
    umsbb_find_buffer
        (putBuffer (freshWrittenSys mb junk d s) 2
          (flippedBuffer mb s byteIdx bit junk d)) 2 =
      some (flippedBuffer mb s byteIdx bit junk d) := by
  refine find_putBuffer _ 2 _ (by norm_num) (by norm_num [UMSBB_MAX_BUFFERS]) ?_ rfl
  have h1 : (flippedBuffer mb s byteIdx bit junk d).initialized = 1 := rfl
  omega

lemma flipped_read_preconditions (mb s byteIdx bit : Nat) (junk d : Nat → Nat)
    (hs2 : s ≤ UMSBB_MAX_MESSAGE_SIZE) :
    ((flippedBuffer mb s byteIdx bit junk d).segments
        (umsbb_select_read_segment (flippedBuffer mb s byteIdx bit junk d))
      ).message_count ≠ 0 ∧
    ((flippedBuffer mb s byteIdx bit junk d).segments
        (umsbb_select_read_segment (flippedBuffer mb s byteIdx bit junk d))
      ).read_pos <
      ((flippedBuffer mb s byteIdx bit junk d).segments
        (umsbb_select_read_segment (flippedBuffer mb s byteIdx bit junk d))
      ).write_pos := by
  rw [select_read_flipped, flippedBuffer_seg0]
  constructor
  · show (0 : Nat) + 1 ≠ 0
    omega
  · show (0 : Nat) < 0 + umsbb_align_size (HEADER_SIZE + s)
    have hge := total_size_ge s hs2
    have h64 : HEADER_SIZE = 64 := rfl
    omega

lemma pendingHeader_flipped (mb s byteIdx bit : Nat) (junk d : Nat → Nat) :
    pendingHeader (flippedBuffer mb s byteIdx bit junk d) =
      decodeHeader (flipData (freshWrittenSeg mb junk d s).data byteIdx bit) 0 := by
  unfold pendingHeader
  dsimp only
  rw [select_read_flipped, flippedBuffer_seg0]
  rw [show (flippedSeg mb s byteIdx bit junk d).read_pos = 0 from rfl,
    show (flippedSeg mb s byteIdx bit junk d).size = mb * 131072 from rfl,
    Nat.zero_mod]
  rfl

lemma pendingPayload_flipped (mb s byteIdx bit : Nat) (junk d : Nat → Nat) (i : Nat) :
    pendingPayload (flippedBuffer mb s byteIdx bit junk d) i =
      flipData (freshWrittenSeg mb junk d s).data byteIdx bit
        (0 + HEADER_SIZE + i) % 256 := by
  unfold pendingPayload
  rw [select_read_flipped, flippedBuffer_seg0]
  rw [show (flippedSeg mb s byteIdx bit junk d).read_pos = 0 from rfl,
    show (flippedSeg mb s byteIdx bit junk d).size = mb * 131072 from rfl,
    Nat.zero_mod]
  rfl

/-- `decodeHeader` only looks at the 64 window bytes mod 256. -/
lemma decodeHeader_congr (m m' : Nat → Nat) (off : Nat)
    (h : ∀ j, j < HEADER_SIZE → m (off + j) % 256 = m' (off + j) % 256) :
    decodeHeader m off = decodeHeader m' off := by
  have h' : ∀ base w, base + w ≤ 64 →
      decodeLE m (off + base) w = decodeLE m' (off + base) w := by
    intro base w hbw
    refine decodeLE_congr w _ _ _ (fun j hj => ?_)
    rw [show off + base + j = off + (base + j) from by omega]
    exact h (base + j) (by unfold HEADER_SIZE; omega)
  unfold decodeHeader
  simp only [MessageHeader.mk.injEq]
  refine ⟨?_, ?_, ?_, ?_, ?_, ?_⟩
  · simpa using h' 0 4 (by omega)
  · exact h' 4 4 (by omega)
  · exact h' 8 8 (by omega)
  · exact h' 16 8 (by omega)
  · exact h' 24 4 (by omega)
  · exact h' 28 4 (by omega)

/-- Decoding the stored header of the first written message. -/
lemma decode_written (mb s : Nat) (junk d : Nat → Nat)
    (hs2 : s ≤ UMSBB_MAX_MESSAGE_SIZE) :
    decodeHeader (freshWrittenSeg mb junk d s).data 0 = freshHeader d s := by
  refine decodeHeader_encode _ _ _
    (fun j hj => by simpa using freshWrittenSeg_header mb junk d s j hj)
    ?_ ?_ ?_ ?_ ?_ ?_
  · norm_num [freshHeader, UMSBB_MAGIC_NUMBER, U32]
  · unfold freshHeader UMSBB_MAX_MESSAGE_SIZE at *
    dsimp only
    norm_num [U32]
    omega
  · norm_num [freshHeader, U64]
  · norm_num [freshHeader, U64]
  · exact checksum_lt d s
  · norm_num [freshHeader, U32]

/-- A bit flipped inside the stored magic field (bytes 0..3) is detected:
the decoded magic no longer matches. -/
lemma flipped_magic_ne (mb s byteIdx bit : Nat) (junk d : Nat → Nat)
    (hs2 : s ≤ UMSBB_MAX_MESSAGE_SIZE) (hbit : bit < 8) (hb : byteIdx < 4) :
    (pendingHeader (flippedBuffer mb s byteIdx bit junk d)).magic ≠
      UMSBB_MAGIC_NUMBER := by
  rw [pendingHeader_flipped]
  show decodeLE (flipData (freshWrittenSeg mb junk d s).data byteIdx bit) 0 4 ≠
    UMSBB_MAGIC_NUMBER
  have horig : decodeLE (freshWrittenSeg mb junk d s).data 0 4 = UMSBB_MAGIC_NUMBER := by
    have h := congrArg MessageHeader.magic (decode_written mb s junk d hs2)
    exact h
  have hne := decodeLE_ne_of_byte_ne 4 (freshWrittenSeg mb junk d s).data
    (flipData (freshWrittenSeg mb junk d s).data byteIdx bit) 0 byteIdx hb
    (fun t ht htne => by unfold flipData; rw [if_neg (by omega)])
    (by
      unfold flipData
      rw [if_pos (by omega)]
      have hx : (freshWrittenSeg mb junk d s).data (0 + byteIdx) < 256 := by
        rw [Nat.zero_add,
          freshWrittenSeg_header mb junk d s byteIdx (by unfold HEADER_SIZE; omega)]
        exact encodeHeader_lt _ _
      exact xor_byte_ne _ bit hx hbit)
  rw [horig] at hne
  exact hne

/-- A bit flipped inside the stored checksum field (bytes 24..27) is
detected: magic and size still decode intact, the recomputed payload
checksum keeps its original value, but the stored checksum changed. -/
lemma flipped_chkfield_facts (mb s byteIdx bit : Nat) (junk d : Nat → Nat)
    (hs2 : s ≤ UMSBB_MAX_MESSAGE_SIZE)
    (hbit : bit < 8) (hb1 : 24 ≤ byteIdx) (hb2 : byteIdx < 28) :
    (pendingHeader (flippedBuffer mb s byteIdx bit junk d)).magic =
      UMSBB_MAGIC_NUMBER ∧
    (pendingHeader (flippedBuffer mb s byteIdx bit junk d)).size = s ∧
    umsbb_calculate_checksum (pendingPayload (flippedBuffer mb s byteIdx bit junk d))
        (pendingHeader (flippedBuffer mb s byteIdx bit junk d)).size ≠
      (pendingHeader (flippedBuffer mb s byteIdx bit junk d)).checksum := by
  have h64 : HEADER_SIZE = 64 := rfl
  have hmagic : (pendingHeader (flippedBuffer mb s byteIdx bit junk d)).magic =
      UMSBB_MAGIC_NUMBER := by
    rw [pendingHeader_flipped]
    show decodeLE (flipData (freshWrittenSeg mb junk d s).data byteIdx bit) 0 4 =
      UMSBB_MAGIC_NUMBER
    rw [decodeLE_congr 4 _ (freshWrittenSeg mb junk d s).data 0
      (fun j hj => by unfold flipData; rw [if_neg (by omega)])]
    have h := congrArg MessageHeader.magic (decode_written mb s junk d hs2)
    exact h
  have hsize : (pendingHeader (flippedBuffer mb s byteIdx bit junk d)).size = s := by
    rw [pendingHeader_flipped]
    show decodeLE (flipData (freshWrittenSeg mb junk d s).data byteIdx bit) (0 + 4) 4 = s
    rw [decodeLE_congr 4 _ (freshWrittenSeg mb junk d s).data (0 + 4)
      (fun j hj => by unfold flipData; rw [if_neg (by omega)])]
    have h := congrArg MessageHeader.size (decode_written mb s junk d hs2)
    exact h
  refine ⟨hmagic, hsize, ?_⟩
  rw [hsize]
  have hcomputed : umsbb_calculate_checksum
      (pendingPayload (flippedBuffer mb s byteIdx bit junk d)) s =
      umsbb_calculate_checksum d s := by
    refine checksum_congr _ _ s (fun i hi => ?_)
    rw [pendingPayload_flipped]
    unfold flipData
    rw [if_neg (by omega), Nat.mod_mod_of_dvd _ (dvd_refl 256),
      show 0 + HEADER_SIZE + i = HEADER_SIZE + i from by omega,
      freshWrittenSeg_payload mb junk d s i hi]
  rw [hcomputed]
  have hstored : (pendingHeader (flippedBuffer mb s byteIdx bit junk d)).checksum ≠
      umsbb_calculate_checksum d s := by
    rw [pendingHeader_flipped]
    show decodeLE (flipData (freshWrittenSeg mb junk d s).data byteIdx bit) (0 + 24) 4 ≠
      umsbb_calculate_checksum d s
    have horig : decodeLE (freshWrittenSeg mb junk d s).data (0 + 24) 4 =
        umsbb_calculate_checksum d s := by
      have h := congrArg MessageHeader.checksum (decode_written mb s junk d hs2)
      exact h
    have hne := decodeLE_ne_of_byte_ne 4 (freshWrittenSeg mb junk d s).data
      (flipData (freshWrittenSeg mb junk d s).data byteIdx bit) (0 + 24) (byteIdx - 24)
      (by omega)
      (fun t ht htne => by unfold flipData; rw [if_neg (by omega)])
      (by
        unfold flipData
        rw [if_pos (by omega)]
        have hx : (freshWrittenSeg mb junk d s).data (0 + 24 + (byteIdx - 24)) < 256 := by
          rw [show 0 + 24 + (byteIdx - 24) = byteIdx from by omega,
            freshWrittenSeg_header mb junk d s byteIdx (by unfold HEADER_SIZE; omega)]
          exact encodeHeader_lt _ _
        exact xor_byte_ne _ bit hx hbit)
    rw [horig] at hne
    exact hne
  exact fun h => hstored h.symm

/-- A bit flipped inside the stored payload is detected: the header decodes
intact but the recomputed checksum differs from the stored one. -/
lemma flipped_payload_facts (mb s byteIdx bit : Nat) (junk d : Nat → Nat)
    (hs2 : s ≤ UMSBB_MAX_MESSAGE_SIZE) (hd : ∀ i, i < s → d i < 256)
    (hbit : bit < 8) (hb1 : HEADER_SIZE ≤ byteIdx) (hb2 : byteIdx < HEADER_SIZE + s) :
    pendingHeader (flippedBuffer mb s byteIdx bit junk d) = freshHeader d s ∧
    umsbb_calculate_checksum (pendingPayload (flippedBuffer mb s byteIdx bit junk d))
        (pendingHeader (flippedBuffer mb s byteIdx bit junk d)).size ≠
      (pendingHeader (flippedBuffer mb s byteIdx bit junk d)).checksum := by
  have h64 : HEADER_SIZE = 64 := rfl
  have hhdr : pendingHeader (flippedBuffer mb s byteIdx bit junk d) =
      freshHeader d s := by
    rw [pendingHeader_flipped,
      decodeHeader_congr _ (freshWrittenSeg mb junk d s).data 0
        (fun j hj => by unfold flipData HEADER_SIZE at *; rw [if_neg (by omega)]),
      decode_written mb s junk d hs2]
  refine ⟨hhdr, ?_⟩
  rw [hhdr]
  show umsbb_calculate_checksum
      (pendingPayload (flippedBuffer mb s byteIdx bit junk d)) s ≠
    umsbb_calculate_checksum d s
  refine checksum_ne_of_byte_ne s _ d (byteIdx - HEADER_SIZE) (by omega)
    (fun j hj hjne => ?_) ?_
  · rw [pendingPayload_flipped]
    unfold flipData
    rw [if_neg (by omega), Nat.mod_mod_of_dvd _ (dvd_refl 256),
      show 0 + HEADER_SIZE + j = HEADER_SIZE + j from by omega,
      freshWrittenSeg_payload mb junk d s j hj]
  · rw [pendingPayload_flipped]
    unfold flipData
    rw [if_pos (by omega), Nat.mod_mod_of_dvd _ (dvd_refl 256),
      show 0 + HEADER_SIZE + (byteIdx - HEADER_SIZE) = HEADER_SIZE + (byteIdx - HEADER_SIZE)
        from by omega,
      freshWrittenSeg_payload mb junk d s (byteIdx - HEADER_SIZE) (by omega)]
    exact xor_byte_ne _ bit (hd _ (by omega)) hbit

/-! ### C8: handle lifecycle -/

/-- `n` successive `umsbb_create_buffer` calls (1 MB each, zeroed backing
memory), keeping only the state. -/
def createN : Nat → Sys → Sys
  | 0, st => st
  | n + 1, st => createN n (umsbb_create_buffer st 1 (fun _ => 0)).2

/-- The handle-allocation loop, started anywhere in `[255, 2^32)`, walks the
whole 32-bit space (every intermediate value is `0` or `≥ 256`) and returns
`1` — the `uint32_t` counter wraps around. -/
lemma nextHandleLoop_wrap (fuel : Nat) :
    ∀ c : Nat, 255 ≤ c → c < U32 → U32 + 1 - c ≤ fuel → nextHandleLoop fuel c = 1 := by
  induction fuel with
  | zero =>
    intro c h1 h2 h3
    have hU : U32 = 4294967296 := rfl
    omega
  | succ f ih =>
    intro c h1 h2 h3
    have hU : U32 = 4294967296 := rfl
    have hB : UMSBB_MAX_BUFFERS = 256 := rfl
    simp only [nextHandleLoop]
    by_cases hc : c = U32 - 1
    · subst hc
      have hmod : (U32 - 1 + 1) % U32 = 0 := by
        rw [show U32 - 1 + 1 = U32 from by omega, Nat.mod_self]
      rw [hmod, if_pos (Or.inl rfl)]
      obtain ⟨g, rfl⟩ : ∃ g, f = g + 1 := ⟨f - 1, by omega⟩
      simp only [nextHandleLoop]
      norm_num [U32, UMSBB_MAX_BUFFERS]
    · have hlt : c + 1 < U32 := by omega
      rw [Nat.mod_eq_of_lt hlt, if_pos (Or.inr (by omega))]
      exact ih (c + 1) (by omega) hlt (by omega)

/-- With the counter at `255`, the next allocation wraps and hands out `1`. -/
lemma get_next_handle_255 : umsbb_get_next_handle 255 = 1 :=
  nextHandleLoop_wrap (U32 + 2) 255 (by norm_num) (by norm_num [U32]) (by norm_num [U32])

/-- A 1 MB create on a state whose allocator yields the in-range handle `h`
returns `h` and stores `h` back into `g_next_handle`. -/
lemma create_handle_next (st : Sys) (junk : Nat → Nat) (h : Nat)
    (hh : umsbb_get_next_handle st.g_next_handle = h)
    (h0 : h ≠ 0) (h256 : h < UMSBB_MAX_BUFFERS) :
    (umsbb_create_buffer st 1 junk).1 = h ∧
    (umsbb_create_buffer st 1 junk).2.g_next_handle = h := by
  have hval : ¬((1 : Nat) < 1 ∨ 64 < 1) := by norm_num
  simp only [umsbb_create_buffer, if_neg hval]
  rw [hh, if_neg (show ¬(h = 0 ∨ UMSBB_MAX_BUFFERS ≤ h) from by omega)]
  exact ⟨rfl, rfl⟩

/-- C2 counterexample: flip bit 0 of stored byte 16 — the low bit of the
header's timestamp field — between commit and read.  The read returns
`UMSBB_SUCCESS`, not `CORRUPTED_DATA`: bits of the sequence, timestamp,
flags and reserved header fields are never checked, so the claim quantified
over every bit position of the stored message is false. -/
theorem c2_integrity_counterexample :
    (umsbb_read_message
        (flipStoredBit
          (umsbb_write_message (umsbb_create_buffer initialSys 1 (fun _ => 0)).2 2
            (some (fun _ => 7)) 1).2 2 0 16 0)
        2 true 16 true).err = UMSBB_SUCCESS ∧
    UMSBB_SUCCESS ≠ UMSBB_ERROR_CORRUPTED_DATA := by decide

/-- C2 amended (proved): integrity detection holds exactly for the checked
regions.  For every payload and every single-bit flip whose byte lies in
the stored magic field (bytes 0..3), the stored checksum field (bytes
24..27), or the stored payload (bytes 64..64+size-1), the read that
encounters the corrupted message returns `CORRUPTED_DATA` (-6).  (Flips in
the sequence, timestamp, flags or reserved header bytes are not detected,
and no trailer exists — see the counterexample.) -/
theorem c2_integrity_amended (mb s cap byteIdx bit : Nat) (junk d : Nat → Nat)
    (h1 : 1 ≤ mb) (h2 : mb ≤ 64) (hs1 : 1 ≤ s) (hs2 : s ≤ UMSBB_MAX_MESSAGE_SIZE)
    (hd : ∀ i, i < s → d i < 256) (hcap : s ≤ cap) (hbit : bit < 8)
    (hbyte : byteIdx < 4 ∨ (24 ≤ byteIdx ∧ byteIdx < 28) ∨
      (HEADER_SIZE ≤ byteIdx ∧ byteIdx < HEADER_SIZE + s)) :
    (umsbb_read_message
        (flipStoredBit
          (umsbb_write_message (umsbb_create_buffer initialSys mb junk).2 2
            (some d) s).2 2 0 byteIdx bit)
        2 true cap true).err = UMSBB_ERROR_CORRUPTED_DATA := by
  rw [write_fresh mb s junk d h1 h2 hs1 hs2]
  dsimp only
  rw [flip_written_eq,
    read_message_found _ 2 cap _ (by omega) (find_flipped mb s byteIdx bit junk d)]
  obtain ⟨hc, hrw⟩ := flipped_read_preconditions mb s byteIdx bit junk d hs2
  rcases hbyte with hb | ⟨hb1, hb2⟩ | ⟨hb1, hb2⟩
  · rw [readFromBuffer_bad_magic _ 2 cap _ hc hrw
      (flipped_magic_ne mb s byteIdx bit junk d hs2 hbit hb)]
  · obtain ⟨hm, hsz, hchk⟩ :=
      flipped_chkfield_facts mb s byteIdx bit junk d hs2 hbit hb1 hb2
    rw [readFromBuffer_bad_checksum _ 2 cap _ hc hrw hm (by rw [hsz]; exact hcap) hchk]
  · obtain ⟨hhdr, hchk⟩ :=
      flipped_payload_facts mb s byteIdx bit junk d hs2 hd hbit hb1 hb2
    have hm : (pendingHeader (flippedBuffer mb s byteIdx bit junk d)).magic =
        UMSBB_MAGIC_NUMBER := by
      rw [hhdr]
      rfl
    have hsz : (pendingHeader (flippedBuffer mb s byteIdx bit junk d)).size ≤ cap := by
      rw [hhdr]
      exact hcap
    rw [readFromBuffer_bad_checksum _ 2 cap _ hc hrw hm hsz hchk]

/-- Witness for the amended C2: flipping bit 3 of stored payload byte 64 of
a one-byte message is detected. -/
theorem c2_integrity_amended_witness :
    ((∀ i : Nat, i < 1 → (fun _ : Nat => 7) i < 256) ∧ (3 : Nat) < 8 ∧
      (HEADER_SIZE ≤ 64 ∧ (64 : Nat) < HEADER_SIZE + 1)) ∧
    (umsbb_read_message
        (flipStoredBit
          (umsbb_write_message (umsbb_create_buffer initialSys 1 (fun _ => 0)).2 2
            (some (fun _ => 7)) 1).2 2 0 64 3)
        2 true 16 true).err = UMSBB_ERROR_CORRUPTED_DATA :=
  ⟨⟨fun i _ => by norm_num, by norm_num, by norm_num [HEADER_SIZE]⟩,
    c2_integrity_amended 1 1 16 64 3 (fun _ => 0) (fun _ => 7)
      (by norm_num) (by norm_num) (by norm_num) (by norm_num [UMSBB_MAX_MESSAGE_SIZE])
      (fun i _ => by norm_num) (by norm_num) (by norm_num)
      (Or.inr (Or.inr (by norm_num [HEADER_SIZE])))⟩

/-- One unrolling of the allocation loop. -/
lemma nextHandleLoop_step (fuel c : Nat) :
    nextHandleLoop (fuel + 1) c =
      if (c + 1) % U32 = 0 ∨ UMSBB_MAX_BUFFERS ≤ (c + 1) % U32
      then nextHandleLoop fuel ((c + 1) % U32) else (c + 1) % U32 := rfl

/-- Away from the wrap point the allocator just increments: if the counter
holds `c` with `c + 1 < 256`, the next handle is `c + 1`. -/
lemma get_next_handle_small (c : Nat) (hsmall : c + 1 < 256) :
    umsbb_get_next_handle c = c + 1 := by
  have hU : U32 = 4294967296 := rfl
  have hB : UMSBB_MAX_BUFFERS = 256 := rfl
  unfold umsbb_get_next_handle
  rw [show U32 + 2 = U32 + 1 + 1 from by omega, nextHandleLoop_step,
    Nat.mod_eq_of_lt (by omega), if_neg (by omega)]

/-- `n` creates starting from counter value `c` (with `c + n ≤ 255`, so the
counter never wraps) leave the counter at `c + n`. -/
lemma createN_g_next (n : Nat) :
    ∀ st : Sys, 1 ≤ st.g_next_handle → st.g_next_handle + n ≤ 255 →
      (createN n st).g_next_handle = st.g_next_handle + n := by
  induction n with
  | zero =>
    intro st h1 h2
    simp [createN]
  | succ m ih =>
    intro st h1 h2
    have hB : UMSBB_MAX_BUFFERS = 256 := rfl
    simp only [createN]
    have hnext := get_next_handle_small st.g_next_handle (by omega)
    have hc := create_handle_next st (fun _ => 0) (st.g_next_handle + 1) hnext
      (by omega) (by omega)
    rw [ih ((umsbb_create_buffer st 1 (fun _ => 0)).2) (by rw [hc.2]; omega)
      (by rw [hc.2]; omega), hc.2]
    omega

/-- C8 counterexample: handle values ARE reused.  The first create returns
handle `2`; destroying it succeeds; after 253 further creates the 32-bit
allocation counter sits at `255`, the next create wraps it through the whole
`uint32` range back to `1`, and the create after that returns `2` again —
the very handle that was destroyed.  This falsifies "no later
umsbb_create_buffer call returns the same handle value". -/
theorem c8_handle_reuse_counterexample :
    (umsbb_create_buffer initialSys 1 (fun _ => 0)).1 = 2 ∧
    (umsbb_destroy_buffer (umsbb_create_buffer initialSys 1 (fun _ => 0)).2 2).1 =
      UMSBB_SUCCESS ∧
    (umsbb_create_buffer
        (umsbb_create_buffer
            (createN 253
              (umsbb_destroy_buffer (umsbb_create_buffer initialSys 1 (fun _ => 0)).2 2).2)
            1 (fun _ => 0)).2
        1 (fun _ => 0)).1 = 2 := by
  refine ⟨by decide, by decide, ?_⟩
  have h2next :
      (umsbb_destroy_buffer (umsbb_create_buffer initialSys 1 (fun _ => 0)).2 2).2.g_next_handle
        = 2 := by decide
  have hn :
      (createN 253
        (umsbb_destroy_buffer (umsbb_create_buffer initialSys 1 (fun _ => 0)).2 2).2).g_next_handle
        = 255 := by
    rw [createN_g_next 253 _ (by rw [h2next]; norm_num) (by rw [h2next]), h2next]
  have h1 := create_handle_next
    (createN 253
      (umsbb_destroy_buffer (umsbb_create_buffer initialSys 1 (fun _ => 0)).2 2).2)
    (fun _ => 0) 1 (by rw [hn]; exact get_next_handle_255) (by norm_num)
    (by norm_num [UMSBB_MAX_BUFFERS])
  have h2 := create_handle_next
    (umsbb_create_buffer
      (createN 253
        (umsbb_destroy_buffer (umsbb_create_buffer initialSys 1 (fun _ => 0)).2 2).2)
      1 (fun _ => 0)).2
    (fun _ => 0) 2 (by rw [h1.2]; exact next_handle_one) (by norm_num)
    (by norm_num [UMSBB_MAX_BUFFERS])
  exact h2.1

/-- C8 amended (proved): the first half of the claim is right.  Whenever
`umsbb_destroy_buffer st h` succeeds, then — before any further create —
`umsbb_write_message`, `umsbb_read_message` and `umsbb_destroy_buffer` on
`h` all return `INVALID_HANDLE` (-4): the registry slot is `NULL`, so
`umsbb_find_buffer` fails.  (Handle values can later be handed out again by
create — see the counterexample — so non-reuse holds only up to the next
wrap of the 32-bit counter.) -/
theorem c8_handle_safety_amended (st : Sys) (h s cap : Nat) (d : Nat → Nat)
    (hdes : (umsbb_destroy_buffer st h).1 = UMSBB_SUCCESS)
    (hs1 : 1 ≤ s) (hs2 : s ≤ UMSBB_MAX_MESSAGE_SIZE) (hcap : cap ≠ 0) :
    (umsbb_write_message (umsbb_destroy_buffer st h).2 h (some d) s).1 =
      UMSBB_ERROR_INVALID_HANDLE ∧
    (umsbb_read_message (umsbb_destroy_buffer st h).2 h true cap true).err =
      UMSBB_ERROR_INVALID_HANDLE ∧
    (umsbb_destroy_buffer (umsbb_destroy_buffer st h).2 h).1 =
      UMSBB_ERROR_INVALID_HANDLE := by
  by_cases hr : h = 0 ∨ UMSBB_MAX_BUFFERS ≤ h
  · exfalso
    unfold umsbb_destroy_buffer at hdes
    rw [if_pos hr] at hdes
    norm_num [UMSBB_ERROR_INVALID_HANDLE, UMSBB_SUCCESS] at hdes
  · cases hb : st.g_buffers h with
    | none =>
      exfalso
      unfold umsbb_destroy_buffer at hdes
      rw [if_neg hr, hb] at hdes
      norm_num [UMSBB_ERROR_INVALID_HANDLE, UMSBB_SUCCESS] at hdes
    | some b =>
      have hst : (umsbb_destroy_buffer st h).2 =
          { st with
            g_buffers := fun h' => if h' = h then none else st.g_buffers h'
            g_active_buffers := st.g_active_buffers - 1 } := by
        unfold umsbb_destroy_buffer
        rw [if_neg hr, hb]
      have hfind :
          umsbb_find_buffer
            { st with
              g_buffers := fun h' => if h' = h then none else st.g_buffers h'
              g_active_buffers := st.g_active_buffers - 1 } h = none := by
        unfold umsbb_find_buffer
        rw [if_neg hr]
        dsimp only
        rw [if_pos rfl]
      rw [hst]
      have hM : UMSBB_MAX_MESSAGE_SIZE = 65536 := rfl
      refine ⟨?_, ?_, ?_⟩
      · unfold umsbb_write_message
        dsimp only
        rw [if_neg (show ¬(s = 0 ∨ UMSBB_MAX_MESSAGE_SIZE < s) from by omega), hfind]
      · unfold umsbb_read_message
        rw [if_neg (by simp [hcap]), hfind]
      · unfold umsbb_destroy_buffer
        rw [if_neg hr]
        dsimp only
        rw [if_pos rfl]

/-- Witness for the amended C8: destroy the first buffer, then write, read
and destroy on its handle each return `INVALID_HANDLE`. -/
theorem c8_handle_safety_amended_witness :
    (umsbb_destroy_buffer (createdSys 1 (fun _ => 0)) 2).1 = UMSBB_SUCCESS ∧
    (umsbb_write_message (umsbb_destroy_buffer (createdSys 1 (fun _ => 0)) 2).2 2
        (some (fun _ => 0)) 1).1 = UMSBB_ERROR_INVALID_HANDLE ∧
    (umsbb_read_message (umsbb_destroy_buffer (createdSys 1 (fun _ => 0)) 2).2 2
        true 1 true).err = UMSBB_ERROR_INVALID_HANDLE ∧
    (umsbb_destroy_buffer (umsbb_destroy_buffer (createdSys 1 (fun _ => 0)) 2).2 2).1 =
      UMSBB_ERROR_INVALID_HANDLE := by
  have hdes : (umsbb_destroy_buffer (createdSys 1 (fun _ => 0)) 2).1 = UMSBB_SUCCESS := by
    decide
  obtain ⟨w, r, dd⟩ := c8_handle_safety_amended (createdSys 1 (fun _ => 0)) 2 1 1
    (fun _ => 0) hdes (by norm_num) (by norm_num [UMSBB_MAX_MESSAGE_SIZE]) (by norm_num)
  exact ⟨hdes, w, r, dd⟩

/-! ### C7: reachable states and the occupancy invariant -/

/-- One API call: the state transitions of `umsbb_create_buffer`,
`umsbb_write_message`, `umsbb_read_message` and `umsbb_destroy_buffer`,
with all arguments quantified. -/
inductive Step : Sys → Sys → Prop where
  | create (st : Sys) (mb : Nat) (junk : Nat → Nat) :
      Step st (umsbb_create_buffer st mb junk).2
  | write (st : Sys) (handle : Nat) (data : Option (Nat → Nat)) (size : Nat) :
      Step st (umsbb_write_message st handle data size).2
  | read (st : Sys) (handle : Nat) (op : Bool) (cap : Nat) (ap : Bool) :
      Step st (umsbb_read_message st handle op cap ap).st
  | destroy (st : Sys) (handle : Nat) :
      Step st (umsbb_destroy_buffer st handle).2

/-- States reachable from the freshly loaded library by any call sequence. -/
def Reachable (st : Sys) : Prop := Relation.ReflTransGen Step initialSys st

/-- The amended per-segment occupancy bound: the write cursor may run ahead
of `read_pos + size` by up to one maximal aligned message (65600 bytes). -/
def SegInv (st : Sys) : Prop :=
  ∀ h b, st.g_buffers h = some b → ∀ i, i < UMSBB_SEGMENT_COUNT →
    (b.segments i).write_pos ≤ (b.segments i).read_pos + (b.segments i).size + 65600

lemma segInv_create (st : Sys) (mb : Nat) (junk : Nat → Nat) (hI : SegInv st) :
    SegInv (umsbb_create_buffer st mb junk).2 := by
  intro h b hb i hi
  unfold umsbb_create_buffer at hb
  by_cases hmb : mb < 1 ∨ 64 < mb
  · rw [if_pos hmb] at hb
    exact hI h b hb i hi
  · rw [if_neg hmb] at hb
    dsimp only at hb
    by_cases hh : umsbb_get_next_handle st.g_next_handle = 0 ∨
        UMSBB_MAX_BUFFERS ≤ umsbb_get_next_handle st.g_next_handle
    · rw [if_pos hh] at hb
      exact hI h b hb i hi
    · rw [if_neg hh] at hb
      dsimp only at hb
      by_cases he : h = umsbb_get_next_handle st.g_next_handle
      · rw [if_pos he] at hb
        obtain rfl := Option.some.inj hb
        exact Nat.zero_le _
      · rw [if_neg he] at hb
        exact hI h b hb i hi

lemma segInv_write (st : Sys) (handle : Nat) (data : Option (Nat → Nat))
    (size : Nat) (hI : SegInv st) : SegInv (umsbb_write_message st handle data size).2 := by
  intro h b hb i hi
  cases data with
  | none => exact hI h b hb i hi
  | some d =>
    unfold umsbb_write_message at hb
    dsimp only at hb
    by_cases hs : size = 0 ∨ UMSBB_MAX_MESSAGE_SIZE < size
    · rw [if_pos hs] at hb
      exact hI h b hb i hi
    · rw [if_neg hs] at hb
      cases hf : umsbb_find_buffer st handle with
      | none =>
        rw [hf] at hb
        exact hI h b hb i hi
      | some buf =>
        rw [hf] at hb
        dsimp only at hb
        have hgb := find_buffer_eq_some st handle buf hf
        have hIbuf := fun i hi => hI handle buf hgb i hi
        have htot : umsbb_align_size (HEADER_SIZE + size) ≤ 65600 := by
          have hM : UMSBB_MAX_MESSAGE_SIZE = 65536 := rfl
          exact total_size_le size (by omega)
        unfold writeToBuffer at hb
        dsimp only at hb
        by_cases hfull :
            (buf.segments (umsbb_select_write_segment buf)).read_pos +
                (buf.segments (umsbb_select_write_segment buf)).size <
              (buf.segments (umsbb_select_write_segment buf)).write_pos +
                umsbb_align_size (HEADER_SIZE + size)
        · rw [if_pos hfull] at hb
          dsimp only [putBuffer] at hb
          by_cases he : h = handle
          · rw [if_pos he] at hb
            obtain rfl := Option.some.inj hb
            exact hIbuf i hi
          · rw [if_neg he] at hb
            exact hI h b hb i hi
        · rw [if_neg hfull] at hb
          unfold commitWrite at hb
          dsimp only [putBuffer, putSegment] at hb
          by_cases he : h = handle
          · rw [if_pos he] at hb
            obtain rfl := Option.some.inj hb
            dsimp only
            by_cases hie : i = umsbb_select_write_segment buf
            · rw [if_pos hie]
              dsimp only
              by_cases hwrap :
                  (buf.segments (umsbb_select_write_segment buf)).size <
                    (buf.segments (umsbb_select_write_segment buf)).write_pos %
                        (buf.segments (umsbb_select_write_segment buf)).size +
                      umsbb_align_size (HEADER_SIZE + size)
              · rw [if_pos hwrap]
                omega
              · rw [if_neg hwrap]
                omega
            · rw [if_neg hie]
              exact hIbuf i hi
          · rw [if_neg he] at hb
            exact hI h b hb i hi

lemma segInv_read (st : Sys) (handle : Nat) (op : Bool) (cap : Nat) (ap : Bool)
    (hI : SegInv st) : SegInv (umsbb_read_message st handle op cap ap).st := by
  intro h b hb i hi
  unfold umsbb_read_message at hb
  by_cases hp : ¬op = true ∨ cap = 0 ∨ ¬ap = true
  · rw [if_pos hp] at hb
    exact hI h b hb i hi
  · rw [if_neg hp] at hb
    cases hf : umsbb_find_buffer st handle with
    | none =>
      rw [hf] at hb
      exact hI h b hb i hi
    | some buf =>
      rw [hf] at hb
      dsimp only at hb
      have hgb := find_buffer_eq_some st handle buf hf
      have hIbuf := fun i hi => hI handle buf hgb i hi
      unfold readFromBuffer at hb
      dsimp only at hb
      by_cases h1 : (buf.segments (umsbb_select_read_segment buf)).message_count = 0
      · rw [if_pos h1] at hb
        exact hI h b hb i hi
      · rw [if_neg h1] at hb
        by_cases h2 : (buf.segments (umsbb_select_read_segment buf)).write_pos ≤
            (buf.segments (umsbb_select_read_segment buf)).read_pos
        · rw [if_pos h2] at hb
          exact hI h b hb i hi
        · rw [if_neg h2] at hb
          by_cases h3 :
              (decodeHeader (buf.segments (umsbb_select_read_segment buf)).data
                  ((buf.segments (umsbb_select_read_segment buf)).read_pos %
                    (buf.segments (umsbb_select_read_segment buf)).size)).magic ≠
                UMSBB_MAGIC_NUMBER
          · rw [if_pos h3] at hb
            dsimp only [putBuffer] at hb
            by_cases he : h = handle
            · rw [if_pos he] at hb
              obtain rfl := Option.some.inj hb
              exact hIbuf i hi
            · rw [if_neg he] at hb
              exact hI h b hb i hi
          · rw [if_neg h3] at hb
            by_cases h4 : cap <
                (decodeHeader (buf.segments (umsbb_select_read_segment buf)).data
                    ((buf.segments (umsbb_select_read_segment buf)).read_pos %
                      (buf.segments (umsbb_select_read_segment buf)).size)).size
            · rw [if_pos h4] at hb
              exact hI h b hb i hi
            · rw [if_neg h4] at hb
              by_cases h5 :
                  umsbb_calculate_checksum
                      (fun j =>
                        (buf.segments (umsbb_select_read_segment buf)).data
                            ((buf.segments (umsbb_select_read_segment buf)).read_pos %
                                (buf.segments (umsbb_select_read_segment buf)).size +
                              HEADER_SIZE + j) % 256)
                      (decodeHeader (buf.segments (umsbb_select_read_segment buf)).data
                          ((buf.segments (umsbb_select_read_segment buf)).read_pos %
                            (buf.segments (umsbb_select_read_segment buf)).size)).size ≠
                    (decodeHeader (buf.segments (umsbb_select_read_segment buf)).data
                        ((buf.segments (umsbb_select_read_segment buf)).read_pos %
                          (buf.segments (umsbb_select_read_segment buf)).size)).checksum
              · rw [if_pos h5] at hb
                dsimp only [putBuffer] at hb
                by_cases he : h = handle
                · rw [if_pos he] at hb
                  obtain rfl := Option.some.inj hb
                  exact hIbuf i hi
                · rw [if_neg he] at hb
                  exact hI h b hb i hi
              · rw [if_neg h5] at hb
                unfold commitRead at hb
                dsimp only [putBuffer, putSegment] at hb
                by_cases he : h = handle
                · rw [if_pos he] at hb
                  obtain rfl := Option.some.inj hb
                  dsimp only
                  by_cases hie : i = umsbb_select_read_segment buf
                  · rw [if_pos hie]
                    dsimp only
                    have := hIbuf (umsbb_select_read_segment buf)
                      (by rw [← hie]; exact hi)
                    omega
                  · rw [if_neg hie]
                    exact hIbuf i hi
                · rw [if_neg he] at hb
                  exact hI h b hb i hi

lemma segInv_destroy (st : Sys) (handle : Nat) (hI : SegInv st) :
    SegInv (umsbb_destroy_buffer st handle).2 := by
  intro h b hb i hi
  unfold umsbb_destroy_buffer at hb
  by_cases hr : handle = 0 ∨ UMSBB_MAX_BUFFERS ≤ handle
  · rw [if_pos hr] at hb
    exact hI h b hb i hi
  · rw [if_neg hr] at hb
    cases hg : st.g_buffers handle with
    | none =>
      rw [hg] at hb
      exact hI h b hb i hi
    | some b0 =>
      rw [hg] at hb
      dsimp only at hb
      by_cases he : h = handle
      · rw [if_pos he] at hb
        exact absurd hb (by simp)
      · rw [if_neg he] at hb
        exact hI h b hb i hi

/-- Every reachable state satisfies the slack invariant. -/
lemma segInv_reachable (st : Sys) (hst : Reachable st) : SegInv st := by
  induction hst with
  | refl =>
    intro h b hb i hi
    exact absurd hb (by simp [initialSys])
  | tail hab hbc ih =>
    cases hbc with
    | create mb junk => exact segInv_create _ mb junk ih
    | write handle data size => exact segInv_write _ handle data size ih
    | read handle op cap ap => exact segInv_read _ handle op cap ap ih
    | destroy handle => exact segInv_destroy _ handle ih

/-- `n` successive writes stay within the reachable set. -/
lemma reachable_iterWrite (handle : Nat) (d : Option (Nat → Nat)) (s : Nat)
    (st : Sys) (hst : Reachable st) : ∀ n, Reachable (iterWrite st handle d s n) := by
  intro n
  induction n with
  | zero => exact hst
  | succ m ih => exact Relation.ReflTransGen.tail ih (Step.write _ handle d s)

/-- The state after: create 1 MB; eight 1-byte writes (one per segment); a
65536-byte write (segment 0); one read (frees the 1-byte message of segment
0); seven 65536-byte writes (segments 1–7); and a 65344-byte write, which
wraps in segment 0. -/
def c7BadSys : Sys :=
  (umsbb_write_message
    (iterWrite
      (umsbb_read_message
        (umsbb_write_message
          (iterWrite (umsbb_create_buffer initialSys 1 (fun _ => 0)).2 2
            (some (fun _ => 0)) 1 8)
          2 (some (fun _ => 0)) 65536).2
        2 true 65536 true).st
      2 (some (fun _ => 0)) 65536 7)
    2 (some (fun _ => 0)) 65344).2

/-- C7 counterexample: the claimed invariant `write_pos − read_pos ≤ size`
is violated in a reachable state.  In `c7BadSys` (one create and seventeen
write/read calls) segment 0 of the registered buffer has
`read_pos + size < write_pos`: the wrap-around branch of
`umsbb_write_message` (lines 390–394) sets `current_write = current_read +
segment->size` and then advances it by the aligned message size, overshooting
the capacity bound. -/
theorem c7_occupancy_counterexample :
    Reachable c7BadSys ∧
    (c7BadSys.g_buffers 2).isSome = true ∧
    ((bufAt c7BadSys 2).segments 0).read_pos + ((bufAt c7BadSys 2).segments 0).size <
      ((bufAt c7BadSys 2).segments 0).write_pos := by
  refine ⟨?_, by decide, by decide⟩
  exact Relation.ReflTransGen.tail
    (reachable_iterWrite 2 (some (fun _ => 0)) 65536 _
      (Relation.ReflTransGen.tail
        (Relation.ReflTransGen.tail
          (reachable_iterWrite 2 (some (fun _ => 0)) 1 _
            (Relation.ReflTransGen.single (Step.create initialSys 1 (fun _ => 0))) 8)
          (Step.write _ 2 (some (fun _ => 0)) 65536))
        (Step.read _ 2 true 65536 true)) 7)
    (Step.write _ 2 (some (fun _ => 0)) 65344)

/-- C7 amended (proved): the correct per-segment occupancy invariant.  In
every state reachable by any sequence of create/write/read/destroy calls,
every registered buffer's segment satisfies
`write_pos ≤ read_pos + size + 65600`: the write cursor can overshoot the
capacity by at most one maximal aligned message (the wrap branch sets it to
`read_pos + size` and then adds the aligned total, which is at most 65600),
and reads only grow `read_pos`. -/
theorem c7_occupancy_amended (st : Sys) (hst : Reachable st) :
    ∀ h b, st.g_buffers h = some b → ∀ i, i < UMSBB_SEGMENT_COUNT →
      (b.segments i).write_pos ≤
        (b.segments i).read_pos + (b.segments i).size + 65600 :=
  segInv_reachable st hst

/-- Witness for the amended C7 at the one-create state: segment 0 of the
fresh buffer satisfies the slack bound. -/
theorem c7_occupancy_amended_witness :
    Reachable (createdSys 1 (fun _ => 0)) ∧
    ((freshBuffer 1 (fun _ => 0)).segments 0).write_pos ≤
      ((freshBuffer 1 (fun _ => 0)).segments 0).read_pos +
        ((freshBuffer 1 (fun _ => 0)).segments 0).size + 65600 := by
  have hr : Reachable (createdSys 1 (fun _ => 0)) := by
    have h := Relation.ReflTransGen.single (Step.create initialSys 1 (fun _ => 0))
    rwa [create_spec 1 (fun _ => 0) (by norm_num) (by norm_num)] at h
  refine ⟨hr, c7_occupancy_amended (createdSys 1 (fun _ => 0)) hr 2
    (freshBuffer 1 (fun _ => 0)) rfl 0 (by norm_num [UMSBB_SEGMENT_COUNT])⟩

end UMSBB
